import Mathlib

/-!
# Resource mutation layer of the five CRUD services

A shallow embedding of `users.js`, `videos.js`, `comments.js`, `playlists.js` and
`subscription.js`.

* A document is an ordered list of fields; a collection is the list of its documents in
  natural (insertion) order.
* Every route handler is a function from the collection (and the request) to a response and the
  collection afterwards. The `try/catch` of a handler is the `Except` case split that maps a
  failure to the 500 response.
* The document store and the HTTP router are external collaborators. Their operations
  (`insertOne`, `findOne`, `find`, `updateOne` with `$inc`, `$addToSet`, `$pull`, `replaceOne`,
  `deleteOne`, and route dispatch in registration order) are modelled after their documented
  behaviour. Numbers are integer-valued (fractions are not modelled); the store holds one as a
  32-bit integer when it fits and as a double otherwise. Field-name validation, size limits,
  collation and the evaluation of query operator documents are outside the model (the last one
  is a parameter, `StoreSem`).
* A request body is a JSON object, a path parameter a string. Requests are served one after the
  other; a failure of the connection to the store is not modelled.
-/

namespace YT

/-! ## Values and documents -/

/-- JSON values as they arrive in a request body, extended with the two store-side kinds that the
services create: object identifiers and dates. -/
inductive JVal where
  | null : JVal
  | bool (b : Bool) : JVal
  | num (n : Int) : JVal
  | str (s : String) : JVal
  | oid (n : Nat) : JVal
  | date (t : Nat) : JVal
  | arr (xs : List JVal) : JVal
  | obj (fs : List (String × JVal)) : JVal

mutual
/-- Decides equality of values. -/
def JVal.decEq : (a b : JVal) → Decidable (a = b)
  | .null, .null => isTrue rfl
  | .bool x, .bool y => decidable_of_iff (x = y) (by simp)
  | .num x, .num y => decidable_of_iff (x = y) (by simp)
  | .str x, .str y => decidable_of_iff (x = y) (by simp)
  | .oid x, .oid y => decidable_of_iff (x = y) (by simp)
  | .date x, .date y => decidable_of_iff (x = y) (by simp)
  | .arr xs, .arr ys => @decidable_of_iff _ (xs = ys) (by simp) (JVal.decEqList xs ys)
  | .obj fs, .obj gs => @decidable_of_iff _ (fs = gs) (by simp) (JVal.decEqFields fs gs)
  | .null, .bool _ | .null, .num _ | .null, .str _ | .null, .oid _ | .null, .date _
  | .null, .arr _ | .null, .obj _ => isFalse nofun
  | .bool _, .null | .bool _, .num _ | .bool _, .str _ | .bool _, .oid _ | .bool _, .date _
  | .bool _, .arr _ | .bool _, .obj _ => isFalse nofun
  | .num _, .null | .num _, .bool _ | .num _, .str _ | .num _, .oid _ | .num _, .date _
  | .num _, .arr _ | .num _, .obj _ => isFalse nofun
  | .str _, .null | .str _, .bool _ | .str _, .num _ | .str _, .oid _ | .str _, .date _
  | .str _, .arr _ | .str _, .obj _ => isFalse nofun
  | .oid _, .null | .oid _, .bool _ | .oid _, .num _ | .oid _, .str _ | .oid _, .date _
  | .oid _, .arr _ | .oid _, .obj _ => isFalse nofun
  | .date _, .null | .date _, .bool _ | .date _, .num _ | .date _, .str _ | .date _, .oid _
  | .date _, .arr _ | .date _, .obj _ => isFalse nofun
  | .arr _, .null | .arr _, .bool _ | .arr _, .num _ | .arr _, .str _ | .arr _, .oid _
  | .arr _, .date _ | .arr _, .obj _ => isFalse nofun
  | .obj _, .null | .obj _, .bool _ | .obj _, .num _ | .obj _, .str _ | .obj _, .oid _
  | .obj _, .date _ | .obj _, .arr _ => isFalse nofun
/-- Decides equality of arrays. -/
def JVal.decEqList : (xs ys : List JVal) → Decidable (xs = ys)
  | [], [] => isTrue rfl
  | [], _ :: _ => isFalse nofun
  | _ :: _, [] => isFalse nofun
  | x :: xs, y :: ys =>
    @decidable_of_iff _ (x = y ∧ xs = ys) (by simp)
      (@instDecidableAnd _ _ (JVal.decEq x y) (JVal.decEqList xs ys))
/-- Decides equality of field lists. -/
def JVal.decEqFields : (fs gs : List (String × JVal)) → Decidable (fs = gs)
  | [], [] => isTrue rfl
  | [], _ :: _ => isFalse nofun
  | _ :: _, [] => isFalse nofun
  | (k, x) :: fs, (l, y) :: gs =>
    @decidable_of_iff _ (k = l ∧ x = y ∧ fs = gs) (by simp [and_assoc])
      (@instDecidableAnd _ _ inferInstance
        (@instDecidableAnd _ _ (JVal.decEq x y) (JVal.decEqFields fs gs)))
end

instance : DecidableEq JVal := JVal.decEq

/-- A document: its fields in order. -/
abbrev Doc := List (String × JVal)

/-- A collection: its documents in natural order. -/
abbrev Coll := List Doc

/-- Property read `d.k` (`none` is JavaScript's `undefined`). -/
def getField (d : Doc) (k : String) : Option JVal := List.lookup k d

/-- Property write `d.k = v`: an existing property keeps its place, a new one goes last. -/
def setField : Doc → String → JVal → Doc
  | [], k, v => [(k, v)]
  | (k', v') :: rest, k, v =>
    if k' == k then (k, v) :: rest else (k', v') :: setField rest k v

/-- Object spread `{...target, ...src}` on field lists. A new key goes last (JavaScript lists
integer-like keys first; the values of the fields are the same). -/
def assign (target src : Doc) : Doc :=
  src.foldl (fun acc p => setField acc p.1 p.2) target

/-- The document without its field `k`. -/
def dropField (d : Doc) (k : String) : Doc := d.filter (fun p => !(p.1 == k))

/-- JavaScript truthiness of a possibly undefined value. -/
def truthy : Option JVal → Bool
  | none => false
  | some .null => false
  | some (.bool b) => b
  | some (.num n) => !(n == 0)
  | some (.str s) => !(s == "")
  | some _ => true

/-- Pairs every element with its index, as the own properties of an array or string. -/
def indexed (xs : List JVal) : Doc :=
  (List.range xs.length).zip xs |>.map (fun p => (toString p.1, p.2))

/-- Own enumerable properties copied by `{...v}`: none for `undefined`, `null`, booleans and
numbers, the indexed elements for arrays, the indexed characters for strings (one per code
point, where JavaScript has one per UTF-16 unit), the fields for objects. -/
def ownProps : Option JVal → Doc
  | some (.obj fs) => fs
  | some (.arr xs) => indexed xs
  | some (.str s) => indexed (s.data.map (fun ch => JVal.str (String.singleton ch)))
  | _ => []

/-- The comparison `SameValueZero` of `Array.prototype.includes`: primitives by value, objects
(arrays, documents, identifiers, dates) by reference, and a value parsed from the request is never
the same reference as one read from the store. -/
def sameValueZero : JVal → JVal → Bool
  | .null, .null => true
  | .bool a, .bool b => a == b
  | .num a, .num b => a == b
  | .str a, .str b => a == b
  | _, _ => false

/-- The test `xs.includes(v)` on an array. -/
def jsIncludes (xs : List JVal) (v : JVal) : Bool := xs.any (fun x => sameValueZero x v)

mutual
/-- JavaScript `ToString` on the values a request body can hold (identifiers and dates do not
occur there and are rendered by their number). -/
def jsToString : JVal → String
  | .null => "null"
  | .bool b => if b then "true" else "false"
  | .num n => toString n
  | .str s => s
  | .oid n => toString n
  | .date t => toString t
  | .arr xs => jsJoin xs
  | .obj _ => "[object Object]"
/-- The text of `Array.prototype.join` with the default separator: `null` elements are empty. -/
def jsJoin : List JVal → String
  | [] => ""
  | [x] => jsElem x
  | x :: y :: rest => jsElem x ++ "," ++ jsJoin (y :: rest)
/-- One element of a joined array. -/
def jsElem : JVal → String
  | .null => ""
  | v => jsToString v
end

/-- The test `s.includes(t)` on strings: `t` occurs in `s` as a contiguous part. -/
def hasSubstr (s t : String) : Bool := s.data.tails.any (fun r => t.data.isPrefixOf r)

/-! ## The document store -/

/-- Failures a handler can run into: the store rejecting an operation, or a JavaScript
`TypeError` raised in the handler itself. Each is caught by the handler and answered with 500. -/
inductive Failure where
  | duplicateKey
  | immutableId
  | notArray
  | nonNumeric
  | badValue
  | typeError
  deriving DecidableEq

/-- The part of the store that is not modelled: how it validates and evaluates operator documents
(such as a condition whose first key starts with a dollar sign) in a query and in `$pull`. -/
structure StoreSem where
  opValid : Doc → Bool
  opHolds : Doc → Option JVal → Bool
  pullValid : Doc → Bool
  pullHolds : Doc → JVal → Bool

/-- A condition document is an operator expression when its first key starts with `$`. -/
def isOperatorDoc : Doc → Bool
  | (k, _) :: _ => k.data.head? == some '$'
  | [] => false

/-- Equality condition `{field: q}` of a query on the value of the field: the value equals `q`,
or is an array with an element equal to `q`; a missing field matches only `null`. -/
def eqMatch (q : JVal) : Option JVal → Bool
  | none => q == JVal.null
  | some (.arr xs) => JVal.arr xs == q || xs.contains q
  | some v => v == q

/-- The filter `{field: k}` with `k` a string taken from the request path. -/
def keyFilter (field k : String) (d : Doc) : Bool := eqMatch (.str k) (getField d field)

/-- A condition `{field: q}` with `q` taken from the request body. -/
def condMatch (sem : StoreSem) (q : JVal) (f : Option JVal) : Bool :=
  match q with
  | .obj fs => if isOperatorDoc fs then sem.opHolds fs f else eqMatch q f
  | _ => eqMatch q f

/-- Whether the store accepts the condition `{field: q}`. -/
def condValid (sem : StoreSem) (q : JVal) : Bool :=
  match q with
  | .obj fs => if isOperatorDoc fs then sem.opValid fs else true
  | _ => true

/-- Store operation `findOne`: the first document passing the filter. -/
def findOne (p : Doc → Bool) (c : Coll) : Option Doc := c.find? p

/-- Store operation `find(...).toArray()`: all documents passing the filter, in order. -/
def find (p : Doc → Bool) (c : Coll) : List Doc := c.filter p

/-- The identifier `insertOne` gives a document: its own `_id` unless that is missing or `null`,
in which case the driver generates `oid`. -/
def assignedId (oid : Nat) (doc : Doc) : JVal :=
  match getField doc "_id" with
  | none => .oid oid
  | some .null => .oid oid
  | some v => v

/-- Store operation `insertOne`: the inserted identifier, the object it was given with the
identifier written into it by the driver, and the collection with the document appended, `_id`
first. An array as `_id` and an `_id` already in the collection are rejected. -/
def insertOne (oid : Nat) (c : Coll) (doc : Doc) : Except Failure (JVal × Doc × Coll) :=
  match assignedId oid doc with
  | .arr _ => .error .badValue
  | id =>
    if c.any (fun d => getField d "_id" == some id) then .error .duplicateKey
    else .ok (id, setField doc "_id" id, c ++ [("_id", id) :: dropField doc "_id"])

/-- Applies `f` to the first document passing `p` and reports that document before and after;
`none` when no document passes. A failure of `f` leaves the collection as it was. -/
def modifyFirst (p : Doc → Bool) (f : Doc → Except Failure Doc) :
    Coll → Except Failure (Option (Doc × Doc) × Coll)
  | [] => .ok (none, [])
  | d :: rest =>
    if p d then
      match f d with
      | .ok d' => .ok (some (d, d'), d' :: rest)
      | .error e => .error e
    else
      match modifyFirst p f rest with
      | .ok (r, rest') => .ok (r, d :: rest')
      | .error e => .error e

/-- The counts `matchedCount` and `modifiedCount` of an update result. -/
def matchedCount (r : Option (Doc × Doc)) : Nat := if r.isSome then 1 else 0

/-- The number of documents an update changed: one when the matched document differs afterwards. -/
def modifiedCount : Option (Doc × Doc) → Nat
  | none => 0
  | some (d, d') => if d = d' then 0 else 1

/-- Whether the driver sends, and the store holds, an integer as a 32-bit integer; any other
number is held as a double. -/
def isInt32 (n : Int) : Bool := decide (-2147483648 ≤ n) && decide (n ≤ 2147483647)

/-- How often `m` must be halved to fall below `2 ^ 53`, the width of a double's mantissa. -/
def halvings : Nat → Nat → Nat
  | 0, _ => 0
  | fuel + 1, m => if m < 9007199254740992 then 0 else halvings fuel (m / 2) + 1

/-- The double nearest to an integer, a tie going to the even mantissa. -/
def roundDouble (n : Int) : Int :=
  let m := n.natAbs
  let e := halvings 1100 m
  let q := m / 2 ^ e
  let r := m % 2 ^ e
  let q' := if 2 ^ e < 2 * r ∨ (2 * r = 2 ^ e ∧ q % 2 = 1) then q + 1 else q
  if n < 0 then -((q' * 2 ^ e : Nat) : Int) else ((q' * 2 ^ e : Nat) : Int)

/-- The sum the store computes for `$inc` by a 32-bit amount. A 32-bit integer is added exactly
(a sum that leaves the 32-bit range is kept as a 64-bit integer); a double is added in double
arithmetic, so the sum is rounded. A 64-bit integer that earlier increments produced is treated
here as the double of the same value, which gives the same sums up to `2 ^ 53`. -/
def storeAdd (n amount : Int) : Int :=
  if isInt32 n then n + amount else roundDouble (n + amount)

/-- Update operator `$inc: {field: amount}`: a missing field starts at `amount`. -/
def applyInc (field : String) (amount : Int) (d : Doc) : Except Failure Doc :=
  match getField d field with
  | none => .ok (setField d field (.num amount))
  | some (.num n) => .ok (setField d field (.num (storeAdd n amount)))
  | some _ => .error .nonNumeric

/-- The values `$addToSet: {field: v}` adds: `v` itself, or the listed values when `v` is the
modifier document `{$each: [...]}` (which admits no other field). -/
def addToSetValues : JVal → Except Failure (List JVal)
  | .obj (("$each", .arr vs) :: []) => .ok vs
  | .obj (("$each", _) :: _) => .error .badValue
  | v => .ok [v]

/-- Appends to `xs`, in order, each of `vs` that is not yet present. -/
def addAll (xs vs : List JVal) : List JVal :=
  vs.foldl (fun acc v => if acc.contains v then acc else acc ++ [v]) xs

/-- Update operator `$addToSet` on the field, for the values to add: a missing field starts as
the empty array, and the document is left as it is when nothing is new. -/
def applyAddToSet (field : String) (vs : List JVal) (d : Doc) : Except Failure Doc :=
  match getField d field with
  | none => .ok (setField d field (.arr (addAll [] vs)))
  | some (.arr xs) => if addAll xs vs = xs then .ok d else .ok (setField d field (.arr (addAll xs vs)))
  | some _ => .error .notArray

/-- Whether `$pull` with condition `cond` removes the element `x`. -/
def pullHolds (sem : StoreSem) (cond x : JVal) : Bool :=
  match cond with
  | .obj fs => sem.pullHolds fs x
  | v => x == v

/-- Update operator `$pull: {field: cond}`: a missing field stays missing. -/
def applyPull (sem : StoreSem) (field : String) (cond : JVal) (d : Doc) : Except Failure Doc :=
  match getField d field with
  | none => .ok d
  | some (.arr xs) => .ok (setField d field (.arr (xs.filter (fun x => !pullHolds sem cond x))))
  | some _ => .error .notArray

/-- Whether the store accepts the `$pull` condition. -/
def pullValid (sem : StoreSem) (cond : JVal) : Bool :=
  match cond with
  | .obj fs => sem.pullValid fs
  | _ => true

/-- Replacement of the document `d` by `new`, as `replaceOne` does it: the identifier cannot
change, and a replacement without one keeps the old identifier. -/
def applyReplace (new d : Doc) : Except Failure Doc :=
  match getField d "_id" with
  | none => .ok new
  | some b =>
    match getField new "_id" with
    | none => .ok (("_id", b) :: new)
    | some a => if a = b then .ok (("_id", b) :: dropField new "_id") else .error .immutableId

/-- Store operation `updateOne(filter, update)`. -/
def updateOne (p : Doc → Bool) (f : Doc → Except Failure Doc) (c : Coll) :
    Except Failure (Option (Doc × Doc) × Coll) := modifyFirst p f c

/-- Store operation `replaceOne(filter, new)`. -/
def replaceOne (p : Doc → Bool) (new : Doc) (c : Coll) :
    Except Failure (Option (Doc × Doc) × Coll) := modifyFirst p (applyReplace new) c

/-- Store operation `deleteOne(filter)`: the deleted count and the collection afterwards. -/
def deleteOne (p : Doc → Bool) : Coll → Nat × Coll
  | [] => (0, [])
  | d :: rest => if p d then (1, rest) else ((deleteOne p rest).1, d :: (deleteOne p rest).2)

/-! ## Responses -/

/-- What a response carries. Template literals keep their interpolated value apart from the
fixed text; `unrouted` is the page of the router when no route answers. -/
inductive Payload where
  | text (s : String)
  | withId (pre : String) (id : JVal)
  | counted (n : Nat) (post : String)
  | failure (pre : String) (e : Failure)
  | json (v : JVal)
  | unrouted
  deriving DecidableEq

/-- An HTTP response: status code and payload. -/
structure Response where
  status : Nat
  payload : Payload
  deriving DecidableEq

/-- What the process reads from its surroundings while serving one request: the clock
(`Date.now()` and `new Date()`) and the identifier the driver generates for an insert. -/
structure Env where
  now : Nat
  date : Nat
  oid : Nat

/-- The JSON object `{message: m}`. -/
def message (m : String) : JVal := .obj [("message", .str m)]

/-! ## users.js, videos.js, comments.js -/

/-- The three services that differ only in names: the key field and the words of the messages. -/
structure Resource where
  keyField : String
  title : String
  noun : String

/-- Names of `users.js`. -/
def users : Resource := ⟨"userId", "User", "user"⟩

/-- Names of `videos.js`. -/
def videos : Resource := ⟨"videoId", "Video", "video"⟩

/-- Names of `comments.js`. -/
def comments : Resource := ⟨"commentId", "Comment", "comment"⟩

/-- Handler `GET /users/:userId` (and its videos and comments twins). -/
def getByKey (r : Resource) (c : Coll) (k : String) : Response :=
  match findOne (keyFilter r.keyField k) c with
  | none => ⟨404, .text (r.title ++ " not found")⟩
  | some d => ⟨200, .json (.obj d)⟩

/-- Handler `POST /users` (and its videos and comments twins). -/
def postCreate (r : Resource) (env : Env) (c : Coll) (body : Doc) : Response × Coll :=
  match insertOne env.oid c body with
  | .ok (insertedId, _, c') => (⟨201, .withId (r.title ++ " added with ID: ") insertedId⟩, c')
  | .error e => (⟨500, .failure ("Error adding " ++ r.noun ++ ": ") e⟩, c)

/-- Handler `PATCH /videos/:videoId/likes` (and its comments twin). -/
def patchLikes (r : Resource) (c : Coll) (k : String) : Response × Coll :=
  match updateOne (keyFilter r.keyField k) (applyInc "likes" 1) c with
  | .ok (res, c') =>
    if matchedCount res = 0 then (⟨404, .text (r.title ++ " not found")⟩, c')
    else (⟨200, .counted (modifiedCount res) (" " ++ r.noun ++ "(s) updated with incremented likes.")⟩, c')
  | .error e => (⟨500, .failure "Error incrementing likes: " e⟩, c)

/-- Handler `DELETE /users/:userId` (and its videos and comments twins). -/
def deleteByKey (r : Resource) (c : Coll) (k : String) : Response × Coll :=
  (⟨200, .counted (deleteOne (keyFilter r.keyField k) c).1 " document(s) deleted"⟩,
    (deleteOne (keyFilter r.keyField k) c).2)

/-- Repeats the likes increment `n` times on the same key, collecting the responses. -/
def patchLikesN (r : Resource) (k : String) : Nat → Coll → List Response × Coll
  | 0, c => ([], c)
  | n + 1, c =>
    ((patchLikes r c k).1 :: (patchLikesN r k n (patchLikes r c k).2).1,
      (patchLikesN r k n (patchLikes r c k).2).2)

/-! ## playlists.js -/

/-- Handler `GET /playlists/:userId`. -/
def getPlaylists (c : Coll) (userId : String) : Response :=
  if (find (keyFilter "userId" userId) c).length = 0 then
    ⟨404, .json (message "No playlists found for this user")⟩
  else ⟨200, .json (.arr ((find (keyFilter "userId" userId) c).map JVal.obj))⟩

/-- Handler `DELETE /playlists/:playlistId`. -/
def deletePlaylist (c : Coll) (playlistId : String) : Response × Coll :=
  (⟨200, .counted (deleteOne (keyFilter "playlistId" playlistId) c).1 " document(s) deleted"⟩,
    (deleteOne (keyFilter "playlistId" playlistId) c).2)

/-- Lines 111-114 of `playlists.js`: `playlist.videos || []`, then `push` unless `includes`.
A string passes `includes` as a text search and has no `push`; any other truthy value has no
`includes`. -/
def pushVideo (existing : Option JVal) (videoId : JVal) : Except Failure JVal :=
  match (if truthy existing then existing else some (.arr [])) with
  | some (.arr xs) => if jsIncludes xs videoId then .ok (.arr xs) else .ok (.arr (xs ++ [videoId]))
  | some (.str s) => if hasSubstr s (jsToString videoId) then .ok (.str s) else .error .typeError
  | _ => .error .typeError

/-- Lines 106-115 of `playlists.js`: the object `updatePayload`. -/
def updatePayload (playlist body : Doc) : Except Failure Doc :=
  if truthy (getField body "videoId") then
    match pushVideo (getField playlist "videos") ((getField body "videoId").getD .null) with
    | .ok vs => .ok (setField (assign [] (ownProps (getField body "updates"))) "videos" vs)
    | .error e => .error e
  else .ok (assign [] (ownProps (getField body "updates")))

/-- Handler `PUT /playlists/:playlistId/videos`. -/
def putPlaylistVideos (c : Coll) (playlistId : String) (body : Doc) : Response × Coll :=
  match findOne (keyFilter "playlistId" playlistId) c with
  | none => (⟨404, .text "Playlist not found"⟩, c)
  | some playlist =>
    match updatePayload playlist body with
    | .error e => (⟨500, .failure "Error updating playlist and adding video: " e⟩, c)
    | .ok payload =>
      match replaceOne (keyFilter "playlistId" playlistId) (assign playlist payload) c with
      | .ok (res, c') =>
        (⟨200, .counted (modifiedCount res) " playlist(s) updated and video added."⟩, c')
      | .error e => (⟨500, .failure "Error updating playlist and adding video: " e⟩, c)

/-- The value the driver sends for `videoId`: `undefined` is serialised as `null`. -/
def sentVideoId (body : Doc) : JVal := (getField body "videoId").getD .null

/-- Handler `PATCH /playlists/:playlistId/add-video`. -/
def patchAddVideo (c : Coll) (playlistId : String) (body : Doc) : Response × Coll :=
  match addToSetValues (sentVideoId body) with
  | .error e => (⟨500, .failure "Error adding video to playlist: " e⟩, c)
  | .ok vs =>
    match updateOne (keyFilter "playlistId" playlistId) (applyAddToSet "videos" vs) c with
    | .ok (res, c') =>
      if matchedCount res = 0 then (⟨404, .text "Playlist not found"⟩, c')
      else (⟨200, .counted (modifiedCount res) " playlist(s) updated with added video."⟩, c')
    | .error e => (⟨500, .failure "Error adding video to playlist: " e⟩, c)

/-- Handler `PATCH /playlists/:playlistId/remove-video`. -/
def patchRemoveVideo (sem : StoreSem) (c : Coll) (playlistId : String) (body : Doc) :
    Response × Coll :=
  if pullValid sem (sentVideoId body) then
    match updateOne (keyFilter "playlistId" playlistId)
        (applyPull sem "videos" (sentVideoId body)) c with
    | .ok (res, c') =>
      if matchedCount res = 0 then (⟨404, .text "Playlist not found"⟩, c')
      else (⟨200, .counted (modifiedCount res) " playlist(s) updated with removed video."⟩, c')
    | .error e => (⟨500, .failure "Error removing video from playlist: " e⟩, c)
  else (⟨500, .failure "Error removing video from playlist: " .badValue⟩, c)

/-! ## subscription.js -/

/-- Handler `GET /subscriptions`. -/
def listSubscriptions (c : Coll) : Response := ⟨200, .json (.arr (c.map JVal.obj))⟩

/-- Handler `GET /subscriptions/:userId`: the user as subscriber or as channel. -/
def getSubscriptionsOf (c : Coll) (userId : String) : Response :=
  if (find (fun d => keyFilter "subscriber" userId d || keyFilter "channel" userId d) c).length = 0
  then ⟨404, .json (message "No subscriptions found for this user")⟩
  else ⟨200, .json (.arr
    ((find (fun d => keyFilter "subscriber" userId d || keyFilter "channel" userId d) c).map
      JVal.obj))⟩

/-- The handler registered first for `POST /subscriptions` (lines 73-81): insert the body. -/
def postSubscription (env : Env) (c : Coll) (body : Doc) : Response × Coll :=
  match insertOne env.oid c body with
  | .ok (insertedId, _, c') => (⟨201, .withId "Subscription added with ID: " insertedId⟩, c')
  | .error e => (⟨500, .failure "Error adding subscription: " e⟩, c)

/-- The object `newSubscription` of lines 103-108. -/
def newSubscription (env : Env) (subscriber channel : JVal) : Doc :=
  [("subscriptionId", .str ("s" ++ toString env.now)), ("subscriber", subscriber),
    ("channel", channel), ("subscribedAt", .date env.date)]

/-- The handler registered second for `POST /subscriptions` (lines 83-119): validate, look for
the pair, insert. -/
def postSubscriptionChecked (sem : StoreSem) (env : Env) (c : Coll) (body : Doc) :
    Response × Coll :=
  if !truthy (getField body "subscriber") || !truthy (getField body "channel") then
    (⟨400, .json (message "Both 'subscriber' and 'channel' are required")⟩, c)
  else
    match getField body "subscriber", getField body "channel" with
    | some subscriber, some channel =>
      if condValid sem subscriber && condValid sem channel then
        match findOne (fun d => condMatch sem subscriber (getField d "subscriber") &&
            condMatch sem channel (getField d "channel")) c with
        | some _ => (⟨409, .json (message "Subscription already exists")⟩, c)
        | none =>
          match insertOne env.oid c (newSubscription env subscriber channel) with
          | .ok (_, inserted, c') =>
            (⟨201, .json (.obj [("message", .str "Subscription created successfully"),
              ("subscription", .obj inserted)])⟩, c')
          | .error e => (⟨500, .failure "Error creating subscription: " e⟩, c)
      else (⟨500, .failure "Error creating subscription: " .badValue⟩, c)
    | _, _ => (⟨400, .json (message "Both 'subscriber' and 'channel' are required")⟩, c)

/-- Whether the store reads a value taken from the body as an operator document. -/
def isOperator : JVal → Bool
  | .obj fs => isOperatorDoc fs
  | _ => false

/-- The `(subscriber, channel)` pair of a stored subscription. -/
def pairOf (d : Doc) : Option JVal × Option JVal :=
  (getField d "subscriber", getField d "channel")

/-! ## Route dispatch -/

/-- HTTP verbs the services route. -/
inductive Method where
  | get | post | put | patch | delete
  deriving DecidableEq

/-- A segment of a route path: fixed text or a named parameter. -/
inductive Seg where
  | lit (s : String)
  | param (name : String)

/-- A request: verb, path split at the slashes, parsed JSON body. -/
structure Request where
  method : Method
  path : List String
  body : Doc

/-- What a handler does with a request: answer it, or pass it on to the next route. -/
inductive Outcome where
  | respond (r : Response) (c : Coll)
  | next (c : Coll)

/-- A registered route: verb, path, a label telling the registrations apart, and the handler. -/
structure Layer where
  method : Method
  pattern : List Seg
  label : String
  run : Env → Coll → List (String × String) → Doc → Outcome

/-- Matches a request path against a route path and binds the parameters. Segments are compared
as given: that the router disregards letter case and a trailing slash is not modelled. -/
def matchPath : List Seg → List String → Option (List (String × String))
  | [], [] => some []
  | .lit s :: ps, x :: xs => if s = x then matchPath ps xs else none
  | .param n :: ps, x :: xs => (matchPath ps xs).map (fun b => (n, x) :: b)
  | _, _ => none

/-- The router: routes are tried in the order of their registration, and the first handler that
answers ends the dispatch. Returns the labels of the handlers that ran, the response and the
collection afterwards. -/
def dispatch : List Layer → Env → Coll → Request → List String × Response × Coll
  | [], _, c, _ => ([], ⟨404, .unrouted⟩, c)
  | l :: ls, env, c, req =>
    if l.method = req.method then
      match matchPath l.pattern req.path with
      | some params =>
        match l.run env c params req.body with
        | .respond r c' => ([l.label], r, c')
        | .next c' =>
          (l.label :: (dispatch ls env c' req).1, (dispatch ls env c' req).2)
      | none => dispatch ls env c req
    else dispatch ls env c req

/-- A handler that always answers. -/
def answering (h : Response × Coll) : Outcome := .respond h.1 h.2

/-- A path parameter of a matched route. -/
def pathParam (params : List (String × String)) (name : String) : String :=
  (List.lookup name params).getD ""

/-- The routes of `subscription.js` in the order of their registration. -/
def subscriptionRoutes (sem : StoreSem) : List Layer :=
  [ ⟨.get, [.lit "subscriptions"], "GET /subscriptions",
      fun _ c _ _ => answering (listSubscriptions c, c)⟩,
    ⟨.get, [.lit "subscriptions", .param "userId"], "GET /subscriptions/:userId",
      fun _ c ps _ => answering (getSubscriptionsOf c (pathParam ps "userId"), c)⟩,
    ⟨.post, [.lit "subscriptions"], "POST /subscriptions (first)",
      fun env c _ body => answering (postSubscription env c body)⟩,
    ⟨.post, [.lit "subscriptions"], "POST /subscriptions (second)",
      fun env c _ body => answering (postSubscriptionChecked sem env c body)⟩ ]

/-- The request `POST /subscriptions` with the given body. -/
def postSubscriptionsRequest (body : Doc) : Request := ⟨.post, ["subscriptions"], body⟩

/-- The subscription service answering `POST /subscriptions`. -/
def servePost (sem : StoreSem) (env : Env) (c : Coll) (body : Doc) :
    List String × Response × Coll :=
  dispatch (subscriptionRoutes sem) env c (postSubscriptionsRequest body)

/-! ## Sample data -/

/-- A store that accepts no operator document; the sample requests below contain none. -/
def plainStore : StoreSem := ⟨fun _ => false, fun _ _ => false, fun _ => false, fun _ _ => false⟩

/-- The surroundings of a first request. -/
def env1 : Env := ⟨1000, 1000, 1⟩

/-- The surroundings of a second, later request. -/
def env2 : Env := ⟨2000, 2000, 2⟩

/-- The body `{subscriber: "A", channel: "B"}`. -/
def pairAB : Doc := [("subscriber", .str "A"), ("channel", .str "B")]

/-- The body `{videoId: "v1", title: "t"}`. -/
def videoV1 : Doc := [("videoId", .str "v1"), ("title", .str "t")]

/-- A stored playlist `p1` of user `u1` that contains the video `v9`. -/
def playlistP1 : Doc :=
  [("_id", .oid 1), ("playlistId", .str "p1"), ("userId", .str "u1"), ("videos", .arr [.str "v9"])]

/-- A stored user `u1`. -/
def userU1 : Doc := [("_id", .oid 1), ("userId", .str "u1"), ("name", .str "old")]

/-! # Properties

## Fields -/

theorem getField_nil (k : String) : getField [] k = none := rfl

theorem getField_cons (k' : String) (v : JVal) (d : Doc) (k : String) :
    getField ((k', v) :: d) k = if k = k' then some v else getField d k := by
  unfold getField
  rw [List.lookup_cons]
  by_cases h : k = k'
  · simp [h]
  · have : (k == k') = false := by simpa using h
    simp [this, h]

theorem getField_setField (d : Doc) (k k' : String) (v : JVal) :
    getField (setField d k v) k' = if k' = k then some v else getField d k' := by
  induction d with
  | nil => simp [setField, getField_cons, getField_nil]
  | cons x rest ih =>
    obtain ⟨a, b⟩ := x
    by_cases hak : a = k
    · subst hak
      rw [setField]
      simp only [beq_self_eq_true, if_true, getField_cons]
      by_cases h1 : k' = a <;> simp [h1]
    · have hb : (a == k) = false := by simpa using hak
      rw [setField]
      simp only [hb, getField_cons, ih]
      by_cases h1 : k' = a
      · simp [h1, hak, getField_cons]
      · simp [h1, getField_cons, ih]

theorem getField_setField_same (d : Doc) (k : String) (v : JVal) :
    getField (setField d k v) k = some v := by
  simp [getField_setField]

theorem getField_setField_other (d : Doc) (k k' : String) (v : JVal) (h : k' ≠ k) :
    getField (setField d k v) k' = getField d k' := by
  simp [getField_setField, h]

theorem setField_setField (d : Doc) (k : String) (v w : JVal) :
    setField (setField d k v) k w = setField d k w := by
  induction d with
  | nil => simp [setField]
  | cons x rest ih =>
    obtain ⟨a, b⟩ := x
    by_cases hak : a = k
    · subst hak
      simp [setField]
    · have hb : (a == k) = false := by simpa using hak
      simp [setField, hb, ih]

theorem getField_dropField (d : Doc) (k k' : String) :
    getField (dropField d k) k' = if k' = k then none else getField d k' := by
  induction d with
  | nil => simp [dropField, getField_nil]
  | cons x rest ih =>
    obtain ⟨a, b⟩ := x
    unfold dropField at ih ⊢
    by_cases hak : a = k
    · subst hak
      simp only [List.filter, beq_self_eq_true, Bool.not_true, ih, getField_cons]
      by_cases h1 : k' = a <;> simp [h1]
    · have hb : (a == k) = false := by simpa using hak
      simp only [List.filter, hb, Bool.not_false, getField_cons, ih]
      by_cases h1 : k' = a
      · simp [h1, hak]
      · simp [h1]

/-- Reading a field of `{...a, ...b}`: the last binding in `b`, else the field of `a`. -/
theorem getField_assign (a b : Doc) (k : String) :
    getField (assign a b) k =
      b.foldl (fun acc p => if p.1 = k then some p.2 else acc) (getField a k) := by
  unfold assign
  induction b generalizing a with
  | nil => rfl
  | cons x rest ih =>
    simp only [List.foldl_cons]
    rw [ih, getField_setField]
    by_cases h : x.1 = k
    · simp [h]
    · have : k ≠ x.1 := fun e => h e.symm
      simp [h, this]

/-! ## Store operations: first match -/

theorem findOne_eq_none_iff (p : Doc → Bool) (c : Coll) :
    findOne p c = none ↔ ∀ x ∈ c, p x = false := by
  unfold findOne
  simp [List.find?_eq_none]

theorem findOne_append (p : Doc → Bool) (pre post : Coll) (d : Doc)
    (hpre : ∀ x ∈ pre, p x = false) (hd : p d = true) :
    findOne p (pre ++ d :: post) = some d := by
  unfold findOne
  induction pre with
  | nil => simp [List.find?, hd]
  | cons x rest ih =>
    have hx : p x = false := hpre x (List.mem_cons_self _ _)
    simp only [List.cons_append, List.find?, hx]
    exact ih (fun y hy => hpre y (List.mem_cons_of_mem _ hy))

theorem findOne_split (p : Doc → Bool) (c : Coll) (d : Doc) (h : findOne p c = some d) :
    ∃ pre post, c = pre ++ d :: post ∧ (∀ x ∈ pre, p x = false) ∧ p d = true := by
  unfold findOne at h
  induction c with
  | nil => simp at h
  | cons x rest ih =>
    by_cases hx : p x = true
    · simp only [List.find?, hx, Option.some.injEq] at h
      subst h
      exact ⟨[], rest, rfl, by simp, hx⟩
    · have hx' : p x = false := by simpa using hx
      simp only [List.find?, hx'] at h
      obtain ⟨pre, post, hc, hpre, hd⟩ := ih h
      refine ⟨x :: pre, post, by simp [hc], ?_, hd⟩
      intro y hy
      rcases List.mem_cons.mp hy with rfl | hy
      · exact hx'
      · exact hpre y hy

theorem modifyFirst_none (p : Doc → Bool) (f : Doc → Except Failure Doc) (c : Coll)
    (h : ∀ x ∈ c, p x = false) : modifyFirst p f c = .ok (none, c) := by
  induction c with
  | nil => rfl
  | cons x rest ih =>
    have hx : p x = false := h x (List.mem_cons_self _ _)
    rw [modifyFirst]
    simp [hx, ih (fun y hy => h y (List.mem_cons_of_mem _ hy))]

theorem modifyFirst_append_ok (p : Doc → Bool) (f : Doc → Except Failure Doc)
    (pre post : Coll) (d d' : Doc) (hpre : ∀ x ∈ pre, p x = false) (hd : p d = true)
    (hf : f d = .ok d') :
    modifyFirst p f (pre ++ d :: post) = .ok (some (d, d'), pre ++ d' :: post) := by
  induction pre with
  | nil =>
    rw [List.nil_append, modifyFirst]
    simp [hd, hf]
  | cons x rest ih =>
    have hx : p x = false := hpre x (List.mem_cons_self _ _)
    rw [List.cons_append, modifyFirst]
    simp [hx, ih (fun y hy => hpre y (List.mem_cons_of_mem _ hy))]

theorem modifyFirst_append_error (p : Doc → Bool) (f : Doc → Except Failure Doc)
    (pre post : Coll) (d : Doc) (e : Failure) (hpre : ∀ x ∈ pre, p x = false) (hd : p d = true)
    (hf : f d = .error e) :
    modifyFirst p f (pre ++ d :: post) = .error e := by
  induction pre with
  | nil =>
    rw [List.nil_append, modifyFirst]
    simp [hd, hf]
  | cons x rest ih =>
    have hx : p x = false := hpre x (List.mem_cons_self _ _)
    rw [List.cons_append, modifyFirst]
    simp [hx, ih (fun y hy => hpre y (List.mem_cons_of_mem _ hy))]

/-- The key filter reads only the key field. -/
theorem keyFilter_congr (field k : String) (d d' : Doc)
    (h : getField d' field = getField d field) : keyFilter field k d' = keyFilter field k d := by
  unfold keyFilter
  rw [h]

/-! ## Likes -/

theorem halvings_of_lt (fuel m : Nat) (h : m < 9007199254740992) : halvings fuel m = 0 := by
  cases fuel with
  | zero => rfl
  | succ f => simp [halvings, h]

theorem roundDouble_of_natAbs_lt (n : Int) (h : n.natAbs < 9007199254740992) :
    roundDouble n = n := by
  unfold roundDouble
  simp only [halvings_of_lt 1100 _ h, pow_zero, Nat.div_one, Nat.mod_one, Nat.mul_one]
  have hq : (if 1 < 2 * 0 ∨ 2 * 0 = 1 ∧ n.natAbs % 2 = 1 then n.natAbs + 1 else n.natAbs) =
      n.natAbs := by simp
  rw [hq]
  by_cases hn : n < 0
  · rw [if_pos hn, Int.ofNat_natAbs_of_nonpos (le_of_lt hn), neg_neg]
  · rw [if_neg hn, Int.natAbs_of_nonneg (not_lt.mp hn)]

/-- Integers of magnitude up to `2 ^ 53` are doubles. -/
theorem roundDouble_exact (n : Int) (hlo : -9007199254740992 ≤ n)
    (hhi : n ≤ 9007199254740992) : roundDouble n = n := by
  by_cases h : n.natAbs < 9007199254740992
  · exact roundDouble_of_natAbs_lt n h
  · have h' : n = 9007199254740992 ∨ n = -9007199254740992 := by
      omega
    rcases h' with h' | h' <;> subst h' <;> decide

/-- Adding one is exact while the sum stays within `2 ^ 53`. -/
theorem storeAdd_exact (n : Int) (hlo : -9007199254740992 ≤ n)
    (hhi : n + 1 ≤ 9007199254740992) : storeAdd n 1 = n + 1 := by
  unfold storeAdd
  split
  · rfl
  · exact roundDouble_exact _ (by omega) hhi

theorem patchLikes_step (r : Resource) (k : String) (pre post : Coll) (d : Doc) (p : Int)
    (hpre : ∀ x ∈ pre, keyFilter r.keyField k x = false)
    (hd : keyFilter r.keyField k d = true)
    (hl : getField d "likes" = some (.num p) ∨ (getField d "likes" = none ∧ p = 0))
    (hlo : -9007199254740992 ≤ p) (hhi : p + 1 ≤ 9007199254740992) :
    patchLikes r (pre ++ d :: post) k =
      (⟨200, .counted 1 (" " ++ r.noun ++ "(s) updated with incremented likes.")⟩,
        pre ++ setField d "likes" (.num (p + 1)) :: post) := by
  have hf : applyInc "likes" 1 d = .ok (setField d "likes" (.num (p + 1))) := by
    unfold applyInc
    rcases hl with h | ⟨h, hp⟩
    · rw [h]
      simp only
      rw [storeAdd_exact p hlo hhi]
    · rw [h, hp]; rfl
  have hne : d ≠ setField d "likes" (.num (p + 1)) := by
    intro e
    have h1 : getField d "likes" = some (.num (p + 1)) := by
      rw [e, getField_setField_same]
    rcases hl with h | ⟨h, _⟩
    · rw [h] at h1
      simp at h1
    · rw [h] at h1
      simp at h1
  unfold patchLikes updateOne
  rw [modifyFirst_append_ok _ _ pre post d _ hpre hd hf]
  simp [matchedCount, modifiedCount, hne]

theorem patchLikesN_spec (r : Resource) (hr : r.keyField ≠ "likes") (k : String) (n : Nat) :
    ∀ (pre post : Coll) (d : Doc) (p : Int),
      (∀ x ∈ pre, keyFilter r.keyField k x = false) →
      keyFilter r.keyField k d = true →
      (getField d "likes" = some (.num p) ∨ (getField d "likes" = none ∧ p = 0)) →
      -9007199254740992 ≤ p → p + n ≤ 9007199254740992 →
      patchLikesN r k n (pre ++ d :: post) =
        (List.replicate n
            ⟨200, .counted 1 (" " ++ r.noun ++ "(s) updated with incremented likes.")⟩,
          pre ++ (if n = 0 then d else setField d "likes" (.num (p + n))) :: post) := by
  induction n with
  | zero => intro pre post d p _ _ _ _ _; simp [patchLikesN]
  | succ n ih =>
    intro pre post d p hpre hd hl hlo hhi
    have hhi1 : p + 1 ≤ 9007199254740992 := by
      push_cast at hhi
      omega
    have hhin : p + 1 + n ≤ 9007199254740992 := by
      push_cast at hhi
      omega
    have hd1 : keyFilter r.keyField k (setField d "likes" (.num (p + 1))) = true := by
      rw [keyFilter_congr _ _ _ _ (getField_setField_other d "likes" r.keyField _ hr)]
      exact hd
    have hl1 : getField (setField d "likes" (.num (p + 1))) "likes" = some (.num (p + 1)) ∨
        (getField (setField d "likes" (.num (p + 1))) "likes" = none ∧ p + 1 = 0) :=
      Or.inl (getField_setField_same _ _ _)
    rw [patchLikesN, patchLikes_step r k pre post d p hpre hd hl hlo hhi1]
    simp only
    rw [ih pre post _ (p + 1) hpre hd1 hl1 (by omega) hhin]
    simp only [List.replicate_succ, Nat.succ_ne_zero, if_false, Prod.mk.injEq, true_and]
    congr 2
    by_cases hn : n = 0
    · subst hn
      simp
    · simp only [hn, if_false, setField_setField]
      congr 2
      push_cast
      ring

/-! ## Set semantics of the videos list -/

theorem setField_of_getField (d : Doc) (k : String) (v : JVal) (h : getField d k = some v) :
    setField d k v = d := by
  induction d with
  | nil => simp [getField_nil] at h
  | cons x rest ih =>
    obtain ⟨a, b⟩ := x
    rw [getField_cons] at h
    by_cases hak : k = a
    · subst hak
      simp only [if_true, Option.some.injEq] at h
      simp [setField, h]
    · have hb : (a == k) = false := by simpa using fun e => hak e.symm
      simp only [hak, if_false] at h
      simp [setField, hb, ih h]

theorem addAll_of_subset (vs xs : List JVal) (h : ∀ v ∈ vs, v ∈ xs) : addAll xs vs = xs := by
  unfold addAll
  induction vs with
  | nil => rfl
  | cons v rest ih =>
    have hv : xs.contains v = true := by simpa using h v (List.mem_cons_self _ _)
    simp only [List.foldl_cons, hv, if_true]
    exact ih (fun w hw => h w (List.mem_cons_of_mem _ hw))

theorem mem_addAll_left (vs xs : List JVal) (x : JVal) (hx : x ∈ xs) : x ∈ addAll xs vs := by
  unfold addAll
  induction vs generalizing xs with
  | nil => exact hx
  | cons v rest ih =>
    simp only [List.foldl_cons]
    apply ih
    split
    · exact hx
    · exact List.mem_append_left _ hx

theorem mem_addAll_right (vs xs : List JVal) (v : JVal) (hv : v ∈ vs) : v ∈ addAll xs vs := by
  induction vs generalizing xs with
  | nil => simp at hv
  | cons w rest ih =>
    have hstep : addAll xs (w :: rest) = addAll (if xs.contains w then xs else xs ++ [w]) rest := by
      simp [addAll]
    rw [hstep]
    rcases List.mem_cons.mp hv with rfl | hv
    · apply mem_addAll_left
      by_cases hc : v ∈ xs
      · simp [hc]
      · simp [hc]
    · exact ih _ hv

theorem addAll_idem (vs xs : List JVal) : addAll (addAll xs vs) vs = addAll xs vs :=
  addAll_of_subset vs _ (fun v hv => mem_addAll_right vs xs v hv)

theorem applyAddToSet_idem (field : String) (vs : List JVal) (d d' : Doc)
    (h : applyAddToSet field vs d = .ok d') : applyAddToSet field vs d' = .ok d' := by
  unfold applyAddToSet at h
  cases hg : getField d field with
  | none =>
    rw [hg] at h
    simp only [Except.ok.injEq] at h
    subst h
    unfold applyAddToSet
    rw [getField_setField_same]
    simp [addAll_idem]
  | some w =>
    rw [hg] at h
    cases w with
    | arr xs =>
      simp only at h
      by_cases hx : addAll xs vs = xs
      · simp only [hx, if_true, Except.ok.injEq] at h
        subst h
        unfold applyAddToSet
        rw [hg]
        simp [hx]
      · simp only [hx, if_false, Except.ok.injEq] at h
        subst h
        unfold applyAddToSet
        rw [getField_setField_same]
        simp [addAll_idem]
    | null => simp at h
    | bool b => simp at h
    | num n => simp at h
    | str s => simp at h
    | oid n => simp at h
    | date t => simp at h
    | obj fs => simp at h

theorem applyAddToSet_other (field : String) (vs : List JVal) (d d' : Doc) (k : String)
    (hk : k ≠ field) (h : applyAddToSet field vs d = .ok d') :
    getField d' k = getField d k := by
  unfold applyAddToSet at h
  cases hg : getField d field with
  | none =>
    rw [hg] at h
    simp only [Except.ok.injEq] at h
    subst h
    exact getField_setField_other _ _ _ _ hk
  | some w =>
    rw [hg] at h
    cases w with
    | arr xs =>
      simp only at h
      by_cases hx : addAll xs vs = xs
      · simp only [hx, if_true, Except.ok.injEq] at h
        subst h
        rfl
      · simp only [hx, if_false, Except.ok.injEq] at h
        subst h
        exact getField_setField_other _ _ _ _ hk
    | null => simp at h
    | bool b => simp at h
    | num n => simp at h
    | str s => simp at h
    | oid n => simp at h
    | date t => simp at h
    | obj fs => simp at h

theorem patchAddVideo_twice (c : Coll) (playlistId : String) (body : Doc) :
    patchAddVideo (patchAddVideo c playlistId body).2 playlistId body =
      (⟨(patchAddVideo c playlistId body).1.status,
          match (patchAddVideo c playlistId body).1.status with
          | 200 => .counted 0 " playlist(s) updated with added video."
          | _ => (patchAddVideo c playlistId body).1.payload⟩,
        (patchAddVideo c playlistId body).2) := by
  unfold patchAddVideo
  cases hvs : addToSetValues (sentVideoId body) with
  | error e => simp [hvs]
  | ok vs =>
    simp only
    cases hfind : findOne (keyFilter "playlistId" playlistId) c with
    | none =>
      have hnone := (findOne_eq_none_iff _ _).mp hfind
      simp [updateOne, modifyFirst_none _ _ c hnone, matchedCount, hvs]
    | some d =>
      obtain ⟨pre, post, hc, hpre, hd⟩ := findOne_split _ _ _ hfind
      subst hc
      cases hf : applyAddToSet "videos" vs d with
      | error e =>
        simp [updateOne, modifyFirst_append_error _ _ pre post d e hpre hd hf, hvs]
      | ok d' =>
        have hd' : keyFilter "playlistId" playlistId d' = true := by
          rw [keyFilter_congr _ _ _ _
            (applyAddToSet_other "videos" vs d d' "playlistId" (by decide) hf)]
          exact hd
        have hf' := applyAddToSet_idem _ _ _ _ hf
        simp [updateOne, modifyFirst_append_ok _ _ pre post d d' hpre hd hf,
          modifyFirst_append_ok _ _ pre post d' d' hpre hd' hf', matchedCount, modifiedCount, hvs]

theorem pullHolds_plain (sem : StoreSem) (cond x : JVal) (h : ∀ fs, cond ≠ .obj fs) :
    pullHolds sem cond x = (x == cond) := by
  cases cond with
  | obj fs => exact absurd rfl (h fs)
  | _ => rfl

theorem pullValid_plain (sem : StoreSem) (cond : JVal) (h : ∀ fs, cond ≠ .obj fs) :
    pullValid sem cond = true := by
  cases cond with
  | obj fs => exact absurd rfl (h fs)
  | _ => rfl

theorem applyPull_absent (sem : StoreSem) (cond : JVal) (d : Doc)
    (hplain : ∀ fs, cond ≠ .obj fs)
    (h : getField d "videos" = none ∨ ∃ xs, getField d "videos" = some (.arr xs) ∧ cond ∉ xs) :
    applyPull sem "videos" cond d = .ok d := by
  unfold applyPull
  rcases h with h | ⟨xs, h, hx⟩
  · rw [h]
  · rw [h]
    have hfilter : xs.filter (fun x => !pullHolds sem cond x) = xs := by
      rw [List.filter_eq_self]
      intro a ha
      rw [pullHolds_plain sem cond a hplain]
      have : a ≠ cond := fun e => hx (e ▸ ha)
      simpa using this
    simp only [hfilter]
    rw [setField_of_getField d "videos" _ h]

/-! ## Object spread -/

theorem keys_setField (d : Doc) (k : String) (v : JVal) :
    (setField d k v).map Prod.fst =
      if k ∈ d.map Prod.fst then d.map Prod.fst else d.map Prod.fst ++ [k] := by
  induction d with
  | nil => simp [setField]
  | cons x rest ih =>
    obtain ⟨a, b⟩ := x
    by_cases hak : a = k
    · subst hak
      simp [setField]
    · have hb : (a == k) = false := by simpa using hak
      have hka : ¬ k = a := fun e => hak e.symm
      rw [setField]
      simp only [hb, Bool.false_eq_true, if_false, List.map_cons, ih, List.mem_cons, hka,
        false_or]
      split <;> simp

theorem nodup_keys_setField (d : Doc) (k : String) (v : JVal) (h : (d.map Prod.fst).Nodup) :
    ((setField d k v).map Prod.fst).Nodup := by
  rw [keys_setField]
  split
  · exact h
  · rename_i hk
    exact List.Nodup.append h (List.nodup_singleton k) (by simpa using hk)

theorem nodup_keys_assign (a b : Doc) (h : (a.map Prod.fst).Nodup) :
    ((assign a b).map Prod.fst).Nodup := by
  unfold assign
  induction b generalizing a with
  | nil => exact h
  | cons x rest ih => exact ih _ (nodup_keys_setField a x.1 x.2 h)

theorem getField_eq_none_of_not_mem (d : Doc) (k : String) (h : k ∉ d.map Prod.fst) :
    getField d k = none := by
  induction d with
  | nil => rfl
  | cons x rest ih =>
    obtain ⟨a, b⟩ := x
    simp only [List.map_cons, List.mem_cons, not_or] at h
    rw [getField_cons]
    simp [h.1, ih h.2]

theorem foldl_last_of_nodup (b : Doc) (k : String) (init : Option JVal)
    (h : (b.map Prod.fst).Nodup) :
    b.foldl (fun acc p => if p.1 = k then some p.2 else acc) init =
      match getField b k with
      | some v => some v
      | none => init := by
  induction b generalizing init with
  | nil => rfl
  | cons x rest ih =>
    obtain ⟨a, w⟩ := x
    simp only [List.map_cons, List.nodup_cons] at h
    simp only [List.foldl_cons]
    rw [ih _ h.2, getField_cons]
    by_cases hak : a = k
    · subst hak
      simp [getField_eq_none_of_not_mem rest a h.1]
    · have hka : ¬ k = a := fun e => hak e.symm
      simp [hak, hka]

/-- Reading a field of `{...a, ...b}` when `b` names no field twice. -/
theorem getField_assign_nodup (a b : Doc) (k : String) (h : (b.map Prod.fst).Nodup) :
    getField (assign a b) k =
      match getField b k with
      | some v => some v
      | none => getField a k := by
  rw [getField_assign, foldl_last_of_nodup b k _ h]

theorem nodup_keys_spread (x : Doc) : ((assign [] x).map Prod.fst).Nodup :=
  nodup_keys_assign [] x (by simp)

/-! ## Merge and append -/

theorem sameValueZero_str (x : JVal) (v : String) : sameValueZero x (.str v) = true ↔ x = .str v := by
  cases x <;> simp [sameValueZero]

theorem jsIncludes_str (xs : List JVal) (v : String) :
    jsIncludes xs (.str v) = true ↔ JVal.str v ∈ xs := by
  unfold jsIncludes
  simp [List.any_eq_true, sameValueZero_str]

theorem pushVideo_list (existing : Option JVal) (xs : List JVal) (v : String)
    (h : existing = some (.arr xs) ∨ (existing = none ∧ xs = [])) :
    pushVideo existing (.str v) =
      .ok (.arr (if JVal.str v ∈ xs then xs else xs ++ [.str v])) := by
  have hp : (if truthy existing then existing else some (.arr [])) = some (.arr xs) := by
    rcases h with h | ⟨h, hx⟩
    · simp [h, truthy]
    · simp [h, hx, truthy]
  unfold pushVideo
  rw [hp]
  by_cases hv : JVal.str v ∈ xs
  · simp [hv, (jsIncludes_str xs v).mpr hv]
  · have : jsIncludes xs (.str v) = false := by
      rw [← Bool.not_eq_true, jsIncludes_str]
      exact hv
    simp [hv, this]

theorem applyReplace_fields (new d stored : Doc) (h : applyReplace new d = .ok stored)
    (hid : getField d "_id" = none ∨ getField new "_id" ≠ none) (k : String) :
    getField stored k = getField new k := by
  unfold applyReplace at h
  cases hd : getField d "_id" with
  | none =>
    rw [hd] at h
    simp only [Except.ok.injEq] at h
    rw [h]
  | some b =>
    rw [hd] at h
    cases hn : getField new "_id" with
    | none => rcases hid with h1 | h1
              · rw [hd] at h1; simp at h1
              · exact absurd hn h1
    | some a =>
      rw [hn] at h
      simp only at h
      by_cases hab : a = b
      · simp only [hab, if_true, Except.ok.injEq] at h
        subst h
        rw [getField_cons, getField_dropField]
        by_cases hk : k = "_id"
        · simp [hk, hn, hab]
        · simp [hk]
      · simp [hab] at h

theorem getField_assign_ne_none (a b : Doc) (k : String) (h : getField a k ≠ none) :
    getField (assign a b) k ≠ none := by
  rw [getField_assign]
  induction b generalizing a with
  | nil => exact h
  | cons x rest ih =>
    simp only [List.foldl_cons]
    have hstep : (if x.1 = k then some x.2 else getField a k) =
        getField (setField a x.1 x.2) k := by
      rw [getField_setField]
      by_cases hx : x.1 = k
      · simp [hx]
      · have : ¬ k = x.1 := fun e => hx e.symm
        simp [hx, this]
    rw [hstep]
    apply ih
    rw [← hstep]
    split
    · simp
    · exact h

/-- What the handler does once the playlist is found and `updatePayload` is built. -/
theorem putPlaylistVideos_found (c : Coll) (playlistId : String) (body playlist payload : Doc)
    (hfind : findOne (keyFilter "playlistId" playlistId) c = some playlist)
    (hpay : updatePayload playlist body = .ok payload) :
    ∃ pre post, c = pre ++ playlist :: post ∧
      (∀ x ∈ pre, keyFilter "playlistId" playlistId x = false) ∧
      (∀ e, applyReplace (assign playlist payload) playlist = .error e →
        putPlaylistVideos c playlistId body =
          (⟨500, .failure "Error updating playlist and adding video: " e⟩, c)) ∧
      (∀ stored, applyReplace (assign playlist payload) playlist = .ok stored →
        putPlaylistVideos c playlistId body =
          (⟨200, .counted (if playlist = stored then 0 else 1)
            " playlist(s) updated and video added."⟩, pre ++ stored :: post) ∧
        ∀ k, getField stored k = getField (assign playlist payload) k) := by
  obtain ⟨pre, post, hc, hpre, hd⟩ := findOne_split _ _ _ hfind
  refine ⟨pre, post, hc, hpre, ?_, ?_⟩
  · intro e he
    unfold putPlaylistVideos
    rw [hfind]
    simp only [hpay]
    subst hc
    simp [replaceOne, modifyFirst_append_error _ _ pre post playlist e hpre hd he]
  · intro stored hs
    constructor
    · unfold putPlaylistVideos
      rw [hfind]
      simp only [hpay]
      subst hc
      simp [replaceOne, modifyFirst_append_ok _ _ pre post playlist stored hpre hd hs,
        modifiedCount]
    · intro k
      apply applyReplace_fields _ _ _ hs
      by_cases hid : getField playlist "_id" = none
      · exact Or.inl hid
      · exact Or.inr (getField_assign_ne_none _ _ _ hid)

theorem keyFilter_iff (field k : String) (d : Doc) :
    keyFilter field k d = true ↔
      getField d field = some (.str k) ∨
        ∃ xs, getField d field = some (.arr xs) ∧ JVal.str k ∈ xs := by
  unfold keyFilter eqMatch
  cases h : getField d field with
  | none => simp
  | some w => cases w <;> simp

theorem insertOne_fresh (oid : Nat) (c : Coll) (doc : Doc)
    (hfree : ∀ d ∈ c, getField d "_id" ≠ some (assignedId oid doc))
    (hid : ∀ xs, getField doc "_id" ≠ some (.arr xs)) :
    insertOne oid c doc =
      .ok (assignedId oid doc, setField doc "_id" (assignedId oid doc),
        c ++ [("_id", assignedId oid doc) :: dropField doc "_id"]) := by
  have hany : (c.any fun d => getField d "_id" == some (assignedId oid doc)) = false := by
    rw [List.any_eq_false]
    intro d hd
    simpa using hfree d hd
  have hid' : ∀ xs, assignedId oid doc ≠ .arr xs := by
    intro xs h
    unfold assignedId at h
    cases hg : getField doc "_id" with
    | none => rw [hg] at h; simp at h
    | some w =>
      rw [hg] at h
      cases w with
      | arr ys => exact hid ys hg
      | null => simp at h
      | _ => simp at h
  unfold insertOne
  cases h : assignedId oid doc with
  | arr xs => exact absurd h (hid' xs)
  | _ =>
    simp only [← h, hany]
    rfl

theorem updatePayload_list (playlist body : Doc) (xs : List JVal) (v : String)
    (hvideos : getField playlist "videos" = some (.arr xs) ∨
      (getField playlist "videos" = none ∧ xs = []))
    (hv : getField body "videoId" = some (.str v)) (hne : v ≠ "") :
    updatePayload playlist body =
      .ok (setField (assign [] (ownProps (getField body "updates"))) "videos"
        (.arr (if JVal.str v ∈ xs then xs else xs ++ [.str v]))) := by
  unfold updatePayload
  rw [hv]
  simp only [truthy, Option.getD_some]
  have : (!(v == "")) = true := by simpa using hne
  rw [this, pushVideo_list _ xs v hvideos]
  rfl

theorem count_after_push (xs : List JVal) (v : JVal) :
    (if v ∈ xs then xs else xs ++ [v]).count v = max 1 (xs.count v) := by
  by_cases h : v ∈ xs
  · have : 1 ≤ xs.count v := List.count_pos_iff.mpr h
    simp [h, this]
  · simp [h, List.count_eq_zero.mpr h]

theorem applyReplace_same_id (new d : Doc) (h : getField new "_id" = getField d "_id") :
    ∃ stored, applyReplace new d = .ok stored := by
  unfold applyReplace
  cases hd : getField d "_id" with
  | none => exact ⟨_, rfl⟩
  | some b =>
    rw [hd] at h
    simp [h]

theorem updatePayload_nodup (playlist body payload : Doc)
    (hpay : updatePayload playlist body = .ok payload) : (payload.map Prod.fst).Nodup := by
  unfold updatePayload at hpay
  by_cases ht : truthy (getField body "videoId") = true
  · rw [if_pos ht] at hpay
    cases hp : pushVideo (getField playlist "videos") ((getField body "videoId").getD .null) with
    | error e => rw [hp] at hpay; simp at hpay
    | ok vs =>
      rw [hp] at hpay
      simp only [Except.ok.injEq] at hpay
      subst hpay
      exact nodup_keys_setField _ _ _ (nodup_keys_spread _)
  · rw [if_neg ht] at hpay
    simp only [Except.ok.injEq] at hpay
    subst hpay
    exact nodup_keys_spread _

theorem updatePayload_fields (playlist body payload : Doc)
    (hpay : updatePayload playlist body = .ok payload) (k : String)
    (hk : k = "videos" → truthy (getField body "videoId") = false) :
    getField payload k = getField (assign [] (ownProps (getField body "updates"))) k := by
  unfold updatePayload at hpay
  by_cases ht : truthy (getField body "videoId") = true
  · rw [if_pos ht] at hpay
    cases hp : pushVideo (getField playlist "videos") ((getField body "videoId").getD .null) with
    | error e => rw [hp] at hpay; simp at hpay
    | ok vs =>
      rw [hp] at hpay
      simp only [Except.ok.injEq] at hpay
      subst hpay
      have hkv : k ≠ "videos" := by
        intro e
        rw [hk e] at ht
        simp at ht
      exact getField_setField_other _ _ _ _ hkv
  · rw [if_neg ht] at hpay
    simp only [Except.ok.injEq] at hpay
    subst hpay
    rfl

theorem addToSetValues_plain (v : JVal) (h : ∀ fs, v ≠ .obj fs) : addToSetValues v = .ok [v] := by
  cases v with
  | obj fs => exact absurd rfl (h fs)
  | _ => rfl

/-- In the model, `POST /subscriptions` is answered by the route registered first. -/
theorem servePost_eq (sem : StoreSem) (env : Env) (c : Coll) (body : Doc) :
    servePost sem env c body =
      (["POST /subscriptions (first)"], postSubscription env c body) := rfl

/-! ## Delete by key -/

theorem deleteOne_none (p : Doc → Bool) (c : Coll) (h : ∀ d ∈ c, p d = false) :
    deleteOne p c = (0, c) := by
  induction c with
  | nil => rfl
  | cons x rest ih =>
    have hx : p x = false := h x (List.mem_cons_self _ _)
    have hrest := ih (fun d hd => h d (List.mem_cons_of_mem _ hd))
    rw [deleteOne]
    simp [hx, hrest]

theorem deleteOne_count_le (p : Doc → Bool) (c : Coll) : (deleteOne p c).1 ≤ 1 := by
  induction c with
  | nil => simp [deleteOne]
  | cons x rest ih =>
    rw [deleteOne]
    by_cases hx : p x = true
    · simp [hx]
    · simpa [hx] using ih

theorem deleteOne_length (p : Doc → Bool) (c : Coll) :
    (deleteOne p c).2.length + (deleteOne p c).1 = c.length := by
  induction c with
  | nil => simp [deleteOne]
  | cons x rest ih =>
    rw [deleteOne]
    by_cases hx : p x = true
    · simp [hx]
    · simp only [hx, Bool.false_eq_true, if_false, List.length_cons]
      omega

theorem deleteOne_count_eq_one_iff (p : Doc → Bool) (c : Coll) :
    (deleteOne p c).1 = 1 ↔ ∃ d ∈ c, p d = true := by
  induction c with
  | nil => simp [deleteOne]
  | cons x rest ih =>
    rw [deleteOne]
    by_cases hx : p x = true
    · simp [hx]
    · simp [hx, ih]

/-! ## Create with duplicate rejection -/

theorem condMatch_plain (sem : StoreSem) (q : JVal) (f : Option JVal) (h : isOperator q = false) :
    condMatch sem q f = eqMatch q f := by
  cases q with
  | obj fs =>
    have h' : isOperatorDoc fs = false := h
    simp [condMatch, h']
  | _ => rfl

theorem condValid_plain (sem : StoreSem) (q : JVal) (h : isOperator q = false) :
    condValid sem q = true := by
  cases q with
  | obj fs =>
    have h' : isOperatorDoc fs = false := h
    simp [condValid, h']
  | _ => rfl

theorem eqMatch_self (q : JVal) : eqMatch q (some q) = true := by
  cases q <;> simp [eqMatch]

theorem insertOne_newSubscription (env : Env) (c : Coll) (s ch : JVal)
    (hfree : ∀ d ∈ c, getField d "_id" ≠ some (.oid env.oid)) :
    insertOne env.oid c (newSubscription env s ch) =
      .ok (.oid env.oid, newSubscription env s ch ++ [("_id", .oid env.oid)],
        c ++ [("_id", .oid env.oid) :: newSubscription env s ch]) := by
  have hnone : getField (newSubscription env s ch) "_id" = none := by
    simp [newSubscription, getField, List.lookup]
  have hid : assignedId env.oid (newSubscription env s ch) = .oid env.oid := by
    simp [assignedId, hnone]
  have hany : (c.any fun d => getField d "_id" == some (JVal.oid env.oid)) = false := by
    rw [List.any_eq_false]
    intro d hd
    simpa using hfree d hd
  have hset : setField (newSubscription env s ch) "_id" (.oid env.oid) =
      newSubscription env s ch ++ [("_id", .oid env.oid)] := by
    simp [newSubscription, setField]
  have hdrop : dropField (newSubscription env s ch) "_id" = newSubscription env s ch := by
    simp [newSubscription, dropField]
  unfold insertOne
  rw [hid]
  simp only [hany, hset, hdrop]
  rfl

theorem insertOne_newSubscription_taken (env : Env) (c : Coll) (s ch : JVal)
    (htaken : ∃ d ∈ c, getField d "_id" = some (.oid env.oid)) :
    insertOne env.oid c (newSubscription env s ch) = .error .duplicateKey := by
  have hnone : getField (newSubscription env s ch) "_id" = none := by
    simp [newSubscription, getField, List.lookup]
  have hid : assignedId env.oid (newSubscription env s ch) = .oid env.oid := by
    simp [assignedId, hnone]
  have hany : (c.any fun d => getField d "_id" == some (JVal.oid env.oid)) = true := by
    rw [List.any_eq_true]
    obtain ⟨d, hd, h⟩ := htaken
    exact ⟨d, hd, by simp [h]⟩
  unfold insertOne
  rw [hid]
  simp only [hany]
  rfl

/-- The handler on a body whose two values are truthy and no operator documents. -/
theorem postSubscriptionChecked_plain (sem : StoreSem) (env : Env) (c : Coll) (body : Doc)
    (s ch : JVal) (hs : getField body "subscriber" = some s)
    (hch : getField body "channel" = some ch)
    (hts : truthy (some s) = true) (htch : truthy (some ch) = true)
    (hps : isOperator s = false) (hpch : isOperator ch = false) :
    postSubscriptionChecked sem env c body =
      match findOne (fun d => eqMatch s (getField d "subscriber") &&
          eqMatch ch (getField d "channel")) c with
      | some _ => (⟨409, .json (message "Subscription already exists")⟩, c)
      | none =>
        match insertOne env.oid c (newSubscription env s ch) with
        | .ok (_, inserted, c') =>
          (⟨201, .json (.obj [("message", .str "Subscription created successfully"),
            ("subscription", .obj inserted)])⟩, c')
        | .error e => (⟨500, .failure "Error creating subscription: " e⟩, c) := by
  have hfilter : (fun d => condMatch sem s (getField d "subscriber") &&
      condMatch sem ch (getField d "channel")) =
      (fun d => eqMatch s (getField d "subscriber") && eqMatch ch (getField d "channel")) := by
    funext d
    rw [condMatch_plain sem s _ hps, condMatch_plain sem ch _ hpch]
  unfold postSubscriptionChecked
  rw [hs, hch]
  simp only [hts, htch, Bool.not_true, Bool.or_self, Bool.false_eq_true, if_false,
    condValid_plain sem s hps, condValid_plain sem ch hpch, Bool.and_self, if_true, hfilter]

theorem postSubscriptionChecked_falsy (sem : StoreSem) (env : Env) (c : Coll) (body : Doc)
    (h : truthy (getField body "subscriber") = false ∨ truthy (getField body "channel") = false) :
    postSubscriptionChecked sem env c body =
      (⟨400, .json (message "Both 'subscriber' and 'channel' are required")⟩, c) := by
  unfold postSubscriptionChecked
  rcases h with h | h <;> simp [h]

/-- The collection after the handler: as before, or with one subscription appended that no stored
subscription matched. -/
theorem postSubscriptionChecked_store (sem : StoreSem) (env : Env) (c : Coll) (body : Doc)
    (hps : ∀ s, getField body "subscriber" = some s → isOperator s = false)
    (hpch : ∀ ch, getField body "channel" = some ch → isOperator ch = false) :
    (postSubscriptionChecked sem env c body).2 = c ∨
      ∃ s ch, (postSubscriptionChecked sem env c body).2 =
          c ++ [("_id", .oid env.oid) :: newSubscription env s ch] ∧
        ∀ d ∈ c, ¬ (eqMatch s (getField d "subscriber") = true ∧
          eqMatch ch (getField d "channel") = true) := by
  by_cases hf : truthy (getField body "subscriber") = false ∨
      truthy (getField body "channel") = false
  · left
    rw [postSubscriptionChecked_falsy sem env c body hf]
  · have hts : truthy (getField body "subscriber") = true := by
      by_contra h
      exact hf (Or.inl (by simpa using h))
    have htch : truthy (getField body "channel") = true := by
      by_contra h
      exact hf (Or.inr (by simpa using h))
    cases hs : getField body "subscriber" with
    | none => rw [hs] at hts; simp [truthy] at hts
    | some s =>
      cases hch : getField body "channel" with
      | none => rw [hch] at htch; simp [truthy] at htch
      | some ch =>
        rw [hs] at hts
        rw [hch] at htch
        rw [postSubscriptionChecked_plain sem env c body s ch hs hch hts htch (hps s hs)
          (hpch ch hch)]
        cases hfind : findOne (fun d => eqMatch s (getField d "subscriber") &&
            eqMatch ch (getField d "channel")) c with
        | some d => left; rfl
        | none =>
          have hnone := (findOne_eq_none_iff _ _).mp hfind
          by_cases hfree : ∀ d ∈ c, getField d "_id" ≠ some (.oid env.oid)
          · right
            refine ⟨s, ch, ?_, ?_⟩
            · simp only
              rw [insertOne_newSubscription env c s ch hfree]
            · intro d hd hm
              have := hnone d hd
              simp [hm.1, hm.2] at this
          · left
            have htaken : ∃ d ∈ c, getField d "_id" = some (.oid env.oid) := by
              by_contra hne
              apply hfree
              intro d hd e
              exact hne ⟨d, hd, e⟩
            simp only
            rw [insertOne_newSubscription_taken env c s ch htaken]

theorem pairOf_stored (env : Env) (s ch : JVal) :
    pairOf (("_id", .oid env.oid) :: newSubscription env s ch) = (some s, some ch) := by
  simp [pairOf, newSubscription, getField, List.lookup]

/-! # The claims -/

/-- C1 (the code departs from the claim): posting the pair `(A, B)` twice to the subscription
service, starting from an empty collection, answers the second request with 201, not 409, and
leaves two documents for the pair. Only the handler registered first ran. -/
theorem C1_second_identical_post_is_created :
    (servePost plainStore env1 [] pairAB).2.2 =
      [[("_id", .oid 1), ("subscriber", .str "A"), ("channel", .str "B")]] ∧
    servePost plainStore env2 (servePost plainStore env1 [] pairAB).2.2 pairAB =
      (["POST /subscriptions (first)"],
        ⟨201, .withId "Subscription added with ID: " (.oid 2)⟩,
        [[("_id", .oid 1), ("subscriber", .str "A"), ("channel", .str "B")],
         [("_id", .oid 2), ("subscriber", .str "A"), ("channel", .str "B")]]) := by
  decide

/-- C2 (the code departs from the claim): a `POST /subscriptions` whose body has a subscriber and
no channel is answered with 201, not 400, and the body is persisted. -/
theorem C2_post_without_channel_is_created :
    servePost plainStore env1 [] [("subscriber", .str "A")] =
      (["POST /subscriptions (first)"],
        ⟨201, .withId "Subscription added with ID: " (.oid 1)⟩,
        [[("_id", .oid 1), ("subscriber", .str "A")]]) := by
  decide

/-- C3 (the code departs from the claim): on a collection that already holds the pair `(A, B)`,
the service answers `POST /subscriptions` for that pair with 201 and inserts a second document,
while the handler registered second, run alone, answers 409 and inserts nothing. The request is
served by the handler registered first; the second never runs. -/
theorem C3_second_handler_not_served :
    servePost plainStore env2
        [[("_id", .oid 1), ("subscriber", .str "A"), ("channel", .str "B")]] pairAB =
      (["POST /subscriptions (first)"],
        ⟨201, .withId "Subscription added with ID: " (.oid 2)⟩,
        [[("_id", .oid 1), ("subscriber", .str "A"), ("channel", .str "B")],
         [("_id", .oid 2), ("subscriber", .str "A"), ("channel", .str "B")]]) ∧
    postSubscriptionChecked plainStore env2
        [[("_id", .oid 1), ("subscriber", .str "A"), ("channel", .str "B")]] pairAB =
      (⟨409, .json (message "Subscription already exists")⟩,
        [[("_id", .oid 1), ("subscriber", .str "A"), ("channel", .str "B")]]) := by
  decide

/-- C4: merge-and-append-video on a found playlist whose `videos` is a list `xs` (or absent, with
`xs` empty), for a non-empty string `videoId`: the payload is built, the document handed to
`replaceOne` has `videos` equal to `xs` when `xs` contains the identifier and to `xs` with the
identifier appended once otherwise, so the identifier occurs once if it was absent and as often
as before if it was present; the stored document has that same `videos` and the answer is 200,
and the write goes through when `updates` names no `_id`. -/
theorem C4_put_videos_appends_once (c : Coll) (playlistId : String) (body playlist : Doc)
    (xs : List JVal) (v : String)
    (hfind : findOne (keyFilter "playlistId" playlistId) c = some playlist)
    (hvideos : getField playlist "videos" = some (.arr xs) ∨
      (getField playlist "videos" = none ∧ xs = []))
    (hv : getField body "videoId" = some (.str v)) (hne : v ≠ "") :
    ∃ payload pre post,
      updatePayload playlist body = .ok payload ∧ c = pre ++ playlist :: post ∧
      getField (assign playlist payload) "videos" =
        some (.arr (if JVal.str v ∈ xs then xs else xs ++ [.str v])) ∧
      (if JVal.str v ∈ xs then xs else xs ++ [.str v]).count (.str v) =
        max 1 (xs.count (.str v)) ∧
      (∀ stored, applyReplace (assign playlist payload) playlist = .ok stored →
        putPlaylistVideos c playlistId body =
          (⟨200, .counted (if playlist = stored then 0 else 1)
            " playlist(s) updated and video added."⟩, pre ++ stored :: post) ∧
        getField stored "videos" =
          some (.arr (if JVal.str v ∈ xs then xs else xs ++ [.str v]))) ∧
      (getField (assign [] (ownProps (getField body "updates"))) "_id" = none →
        ∃ stored, applyReplace (assign playlist payload) playlist = .ok stored) := by
  have hpay := updatePayload_list playlist body xs v hvideos hv hne
  have hnodup : ((setField (assign [] (ownProps (getField body "updates"))) "videos"
      (.arr (if JVal.str v ∈ xs then xs else xs ++ [.str v]))).map Prod.fst).Nodup :=
    nodup_keys_setField _ _ _ (nodup_keys_spread _)
  have hvid : getField (assign playlist (setField (assign [] (ownProps (getField body "updates")))
      "videos" (.arr (if JVal.str v ∈ xs then xs else xs ++ [.str v])))) "videos" =
      some (.arr (if JVal.str v ∈ xs then xs else xs ++ [.str v])) := by
    rw [getField_assign_nodup _ _ _ hnodup, getField_setField_same]
  obtain ⟨pre, post, hc, _, _, hok⟩ := putPlaylistVideos_found c playlistId body playlist _ hfind hpay
  refine ⟨_, pre, post, hpay, hc, hvid, count_after_push xs (.str v), ?_, ?_⟩
  · intro stored hs
    obtain ⟨h1, h2⟩ := hok stored hs
    exact ⟨h1, by rw [h2, hvid]⟩
  · intro hnoid
    apply applyReplace_same_id
    rw [getField_assign_nodup _ _ _ hnodup, getField_setField_other _ _ _ _ (by decide), hnoid]

/-- Witness for C4: the playlist `p1` holding `v9` receives the video `b`. -/
theorem C4_put_videos_appends_once_witness :
    findOne (keyFilter "playlistId" "p1") [playlistP1] = some playlistP1 ∧
    (getField playlistP1 "videos" = some (.arr [.str "v9"]) ∨
      (getField playlistP1 "videos" = none ∧ [JVal.str "v9"] = [])) ∧
    getField [("videoId", .str "b")] "videoId" = some (.str "b") ∧ "b" ≠ "" ∧
    ∃ payload pre post,
      updatePayload playlistP1 [("videoId", .str "b")] = .ok payload ∧
      [playlistP1] = pre ++ playlistP1 :: post ∧
      getField (assign playlistP1 payload) "videos" =
        some (.arr (if JVal.str "b" ∈ [JVal.str "v9"] then [.str "v9"]
          else [.str "v9"] ++ [.str "b"])) ∧
      (if JVal.str "b" ∈ [JVal.str "v9"] then [JVal.str "v9"]
          else [.str "v9"] ++ [.str "b"]).count (.str "b") =
        max 1 ([JVal.str "v9"].count (.str "b")) ∧
      (∀ stored, applyReplace (assign playlistP1 payload) playlistP1 = .ok stored →
        putPlaylistVideos [playlistP1] "p1" [("videoId", .str "b")] =
          (⟨200, .counted (if playlistP1 = stored then 0 else 1)
            " playlist(s) updated and video added."⟩, pre ++ stored :: post) ∧
        getField stored "videos" =
          some (.arr (if JVal.str "b" ∈ [JVal.str "v9"] then [.str "v9"]
            else [.str "v9"] ++ [.str "b"]))) ∧
      (getField (assign [] (ownProps (getField [("videoId", .str "b")] "updates"))) "_id" = none →
        ∃ stored, applyReplace (assign playlistP1 payload) playlistP1 = .ok stored) :=
  ⟨by decide, Or.inl (by decide), by decide, by decide,
    C4_put_videos_appends_once [playlistP1] "p1" [("videoId", .str "b")] playlistP1
      [.str "v9"] "b" (by decide) (Or.inl (by decide)) (by decide) (by decide)⟩

/-- C5 (counterexample): with a `videoId` supplied, the field `videos` named in `updates` does not
take the payload's value: the stored list is the old one with the video appended. -/
theorem C5_videos_not_taken_from_updates :
    getField (ownProps (getField
        [("videoId", .str "b"), ("updates", .obj [("videos", .arr [.str "z"])])] "updates"))
      "videos" = some (.arr [.str "z"]) ∧
    putPlaylistVideos [playlistP1] "p1"
        [("videoId", .str "b"), ("updates", .obj [("videos", .arr [.str "z"])])] =
      (⟨200, .counted 1 " playlist(s) updated and video added."⟩,
        [[("_id", .oid 1), ("playlistId", .str "p1"), ("userId", .str "u1"),
          ("videos", .arr [.str "v9", .str "b"])]]) := by
  decide

/-- C5 (as amended): merge-and-append-video answers 404 and writes nothing when no playlist
matches. When one is found and the payload is built, every field other than `videos` (and
`videos` too when no `videoId` is supplied) has, in the document handed to `replaceOne`, the value
`updates` gives it, or its prior value when `updates` does not name it; the write either fails,
answering 500 and leaving the collection as it was, or replaces the found document by one with
exactly those fields and answers 200. -/
theorem C5_put_videos_merge_frame (c : Coll) (playlistId : String) (body : Doc) :
    (findOne (keyFilter "playlistId" playlistId) c = none →
      putPlaylistVideos c playlistId body = (⟨404, .text "Playlist not found"⟩, c)) ∧
    (∀ playlist payload, findOne (keyFilter "playlistId" playlistId) c = some playlist →
      updatePayload playlist body = .ok payload →
      (∀ k, (k = "videos" → truthy (getField body "videoId") = false) →
        getField (assign playlist payload) k =
          match getField (assign [] (ownProps (getField body "updates"))) k with
          | some v => some v
          | none => getField playlist k) ∧
      ∃ pre post, c = pre ++ playlist :: post ∧
        (∀ e, applyReplace (assign playlist payload) playlist = .error e →
          putPlaylistVideos c playlistId body =
            (⟨500, .failure "Error updating playlist and adding video: " e⟩, c)) ∧
        (∀ stored, applyReplace (assign playlist payload) playlist = .ok stored →
          putPlaylistVideos c playlistId body =
            (⟨200, .counted (if playlist = stored then 0 else 1)
              " playlist(s) updated and video added."⟩, pre ++ stored :: post) ∧
          ∀ k, getField stored k = getField (assign playlist payload) k)) := by
  constructor
  · intro hnone
    unfold putPlaylistVideos
    rw [hnone]
  · intro playlist payload hfind hpay
    constructor
    · intro k hk
      rw [getField_assign_nodup _ _ _ (updatePayload_nodup playlist body payload hpay),
        updatePayload_fields playlist body payload hpay k hk]
    · obtain ⟨pre, post, hc, _, herr, hok⟩ :=
        putPlaylistVideos_found c playlistId body playlist payload hfind hpay
      exact ⟨pre, post, hc, herr, hok⟩

/-- Witness for C5: the playlist `p1` receives the video `b` and a new title. -/
theorem C5_put_videos_merge_frame_witness :
    findOne (keyFilter "playlistId" "p1") [playlistP1] = some playlistP1 ∧
    updatePayload playlistP1
        [("videoId", .str "b"), ("updates", .obj [("title", .str "T")])] =
      .ok [("title", .str "T"), ("videos", .arr [.str "v9", .str "b"])] ∧
    ((∀ k, (k = "videos" → truthy (getField
          [("videoId", .str "b"), ("updates", .obj [("title", .str "T")])] "videoId") = false) →
        getField (assign playlistP1
            [("title", .str "T"), ("videos", .arr [.str "v9", .str "b"])]) k =
          match getField (assign [] (ownProps (getField
            [("videoId", .str "b"), ("updates", .obj [("title", .str "T")])] "updates"))) k with
          | some v => some v
          | none => getField playlistP1 k) ∧
      ∃ pre post, [playlistP1] = pre ++ playlistP1 :: post ∧
        (∀ e, applyReplace (assign playlistP1
            [("title", .str "T"), ("videos", .arr [.str "v9", .str "b"])]) playlistP1 = .error e →
          putPlaylistVideos [playlistP1] "p1"
              [("videoId", .str "b"), ("updates", .obj [("title", .str "T")])] =
            (⟨500, .failure "Error updating playlist and adding video: " e⟩, [playlistP1])) ∧
        (∀ stored, applyReplace (assign playlistP1
            [("title", .str "T"), ("videos", .arr [.str "v9", .str "b"])]) playlistP1 = .ok stored →
          putPlaylistVideos [playlistP1] "p1"
              [("videoId", .str "b"), ("updates", .obj [("title", .str "T")])] =
            (⟨200, .counted (if playlistP1 = stored then 0 else 1)
              " playlist(s) updated and video added."⟩, pre ++ stored :: post) ∧
          ∀ k, getField stored k = getField (assign playlistP1
            [("title", .str "T"), ("videos", .arr [.str "v9", .str "b"])]) k)) :=
  ⟨by decide, rfl,
    (C5_put_videos_merge_frame [playlistP1] "p1"
      [("videoId", .str "b"), ("updates", .obj [("title", .str "T")])]).2 playlistP1
      [("title", .str "T"), ("videos", .arr [.str "v9", .str "b"])] (by decide) rfl⟩

/-- C6: add-video-if-absent is idempotent. A second call with the same request leaves the whole
collection as the first call left it and answers with the same status; and a call for a plain
(non-document) `videoId` that the found playlist already lists answers 200, reports no
modification and leaves the collection, hence the list and its length, unchanged. -/
theorem C6_add_video_idempotent (c : Coll) (playlistId : String) (body : Doc) :
    (patchAddVideo (patchAddVideo c playlistId body).2 playlistId body).2 =
      (patchAddVideo c playlistId body).2 ∧
    (patchAddVideo (patchAddVideo c playlistId body).2 playlistId body).1.status =
      (patchAddVideo c playlistId body).1.status ∧
    (∀ d xs, findOne (keyFilter "playlistId" playlistId) c = some d →
      getField d "videos" = some (.arr xs) →
      (∀ fs, sentVideoId body ≠ .obj fs) → sentVideoId body ∈ xs →
      patchAddVideo c playlistId body =
        (⟨200, .counted 0 " playlist(s) updated with added video."⟩, c)) := by
  refine ⟨?_, ?_, ?_⟩
  · rw [patchAddVideo_twice]
  · rw [patchAddVideo_twice]
  · intro d xs hfind hvideos hplain hmem
    obtain ⟨pre, post, hc, hpre, hd⟩ := findOne_split _ _ _ hfind
    subst hc
    have hf : applyAddToSet "videos" [sentVideoId body] d = .ok d := by
      unfold applyAddToSet
      rw [hvideos]
      have : addAll xs [sentVideoId body] = xs :=
        addAll_of_subset _ _ (fun v hv => by rw [List.mem_singleton.mp hv]; exact hmem)
      simp [this]
    unfold patchAddVideo
    rw [addToSetValues_plain _ hplain]
    simp [updateOne, modifyFirst_append_ok _ _ pre post d d hpre hd hf, matchedCount,
      modifiedCount]

/-- Witness for C6: `PATCH /playlists/p1/add-video` with `{videoId: "v9"}` on the playlist that
already contains `v9`. -/
theorem C6_add_video_idempotent_witness :
    findOne (keyFilter "playlistId" "p1") [playlistP1] = some playlistP1 ∧
    getField playlistP1 "videos" = some (.arr [.str "v9"]) ∧
    (∀ fs, sentVideoId [("videoId", .str "v9")] ≠ .obj fs) ∧
    sentVideoId [("videoId", .str "v9")] ∈ [JVal.str "v9"] ∧
    patchAddVideo [playlistP1] "p1" [("videoId", .str "v9")] =
      (⟨200, .counted 0 " playlist(s) updated with added video."⟩, [playlistP1]) :=
  ⟨by decide, by decide, (fun fs h => by cases h), by decide,
    (C6_add_video_idempotent [playlistP1] "p1" [("videoId", .str "v9")]).2.2 playlistP1
      [.str "v9"] (by decide) (by decide) (fun fs h => by cases h) (by decide)⟩

/-- C7: remove-video answers 404 only when no playlist matches the key (and always then, once the
store accepts the request). When a playlist is found and the plain (non-document) `videoId` does
not occur in its `videos` list, or the list is absent, the call answers 200, reports no
modification and leaves the whole collection unchanged. -/
theorem C7_remove_absent_video_is_noop (sem : StoreSem) (c : Coll) (playlistId : String)
    (body : Doc) :
    ((patchRemoveVideo sem c playlistId body).1.status = 404 →
      findOne (keyFilter "playlistId" playlistId) c = none) ∧
    (pullValid sem (sentVideoId body) = true →
      findOne (keyFilter "playlistId" playlistId) c = none →
      patchRemoveVideo sem c playlistId body = (⟨404, .text "Playlist not found"⟩, c)) ∧
    (∀ d, findOne (keyFilter "playlistId" playlistId) c = some d →
      (∀ fs, sentVideoId body ≠ .obj fs) →
      (getField d "videos" = none ∨
        ∃ xs, getField d "videos" = some (.arr xs) ∧ sentVideoId body ∉ xs) →
      patchRemoveVideo sem c playlistId body =
        (⟨200, .counted 0 " playlist(s) updated with removed video."⟩, c)) := by
  refine ⟨?_, ?_, ?_⟩
  · intro hs
    cases hfind : findOne (keyFilter "playlistId" playlistId) c with
    | none => rfl
    | some d =>
      exfalso
      obtain ⟨pre, post, hc, hpre, hd⟩ := findOne_split _ _ _ hfind
      subst hc
      unfold patchRemoveVideo at hs
      by_cases hv : pullValid sem (sentVideoId body) = true
      · cases hf : applyPull sem "videos" (sentVideoId body) d with
        | error e =>
          simp [hv, updateOne, modifyFirst_append_error _ _ pre post d e hpre hd hf] at hs
        | ok d' =>
          simp [hv, updateOne, modifyFirst_append_ok _ _ pre post d d' hpre hd hf,
            matchedCount] at hs
      · simp [hv] at hs
  · intro hv hfind
    have hnone := (findOne_eq_none_iff _ _).mp hfind
    unfold patchRemoveVideo
    simp [hv, updateOne, modifyFirst_none _ _ c hnone, matchedCount]
  · intro d hfind hplain habs
    obtain ⟨pre, post, hc, hpre, hd⟩ := findOne_split _ _ _ hfind
    subst hc
    have hf := applyPull_absent sem (sentVideoId body) d hplain habs
    unfold patchRemoveVideo
    simp [pullValid_plain sem _ hplain, updateOne,
      modifyFirst_append_ok _ _ pre post d d hpre hd hf, matchedCount, modifiedCount]

/-- Witness for C7: removing `v2` from the playlist `p1` that holds only `v9`. -/
theorem C7_remove_absent_video_is_noop_witness :
    findOne (keyFilter "playlistId" "p1") [playlistP1] = some playlistP1 ∧
    (∀ fs, sentVideoId [("videoId", .str "v2")] ≠ .obj fs) ∧
    (getField playlistP1 "videos" = none ∨
      ∃ xs, getField playlistP1 "videos" = some (.arr xs) ∧
        sentVideoId [("videoId", .str "v2")] ∉ xs) ∧
    patchRemoveVideo plainStore [playlistP1] "p1" [("videoId", .str "v2")] =
      (⟨200, .counted 0 " playlist(s) updated with removed video."⟩, [playlistP1]) :=
  ⟨by decide, (fun fs h => by cases h), Or.inr ⟨[.str "v9"], by decide, by decide⟩,
    (C7_remove_absent_video_is_noop plainStore [playlistP1] "p1" [("videoId", .str "v2")]).2.2
      playlistP1 (by decide) (fun fs h => by cases h)
      (Or.inr ⟨[.str "v9"], by decide, by decide⟩)⟩

/-- C8 (counterexample): a video created through `POST /videos` with `likes` equal to `2 ^ 53`
is held as a double; the increment call answers 200, reports no modification and leaves `likes`
at `2 ^ 53`, not at `2 ^ 53 + 1`. -/
theorem C8_likes_stuck_at_two_pow_53 :
    (postCreate videos env1 [] [("videoId", .str "v1"), ("likes", .num 9007199254740992)]).2 =
      [[("_id", .oid 1), ("videoId", .str "v1"), ("likes", .num 9007199254740992)]] ∧
    patchLikes videos
        [[("_id", .oid 1), ("videoId", .str "v1"), ("likes", .num 9007199254740992)]] "v1" =
      (⟨200, .counted 0 " video(s) updated with incremented likes."⟩,
        [[("_id", .oid 1), ("videoId", .str "v1"), ("likes", .num 9007199254740992)]]) := by
  decide

/-- C8 (as amended): increment counter on videos and comments. When the key selects the document
`d` whose `likes` is the integer `p` (or absent, with `p = 0`), and `p` is at least `-2 ^ 53` and
`p + n` at most `2 ^ 53`, then `n` increment calls in a row each answer 200 reporting one
modification, change no other document, and leave in place of `d` a document that the key still
selects, whose `likes` is `p + n` (for `n` at least one) and whose other fields are those of
`d`. -/
theorem C8_likes_after_increments (r : Resource) (hr : r = videos ∨ r = comments) (n : Nat)
    (p : Int) (k : String) (c : Coll) (d : Doc)
    (hd : findOne (keyFilter r.keyField k) c = some d)
    (hl : getField d "likes" = some (.num p) ∨ (getField d "likes" = none ∧ p = 0))
    (hlo : -9007199254740992 ≤ p) (hhi : p + n ≤ 9007199254740992) :
    ∃ pre post d', c = pre ++ d :: post ∧
      patchLikesN r k n c =
        (List.replicate n
            ⟨200, .counted 1 (" " ++ r.noun ++ "(s) updated with incremented likes.")⟩,
          pre ++ d' :: post) ∧
      findOne (keyFilter r.keyField k) (pre ++ d' :: post) = some d' ∧
      (0 < n → getField d' "likes" = some (.num (p + n))) ∧
      (n = 0 → d' = d) ∧
      ∀ f, f ≠ "likes" → getField d' f = getField d f := by
  have hkey : r.keyField ≠ "likes" := by
    rcases hr with h | h <;> subst h <;> decide
  obtain ⟨pre, post, hc, hpre, hdm⟩ := findOne_split _ _ _ hd
  refine ⟨pre, post, if n = 0 then d else setField d "likes" (.num (p + n)), hc, ?_, ?_, ?_,
    ?_, ?_⟩
  · rw [hc]
    exact patchLikesN_spec r hkey k n pre post d p hpre hdm hl hlo hhi
  · apply findOne_append _ _ _ _ hpre
    split
    · exact hdm
    · rw [keyFilter_congr _ _ _ _ (getField_setField_other d "likes" r.keyField _ hkey)]
      exact hdm
  · intro hn
    simp [Nat.pos_iff_ne_zero.mp hn, getField_setField_same]
  · intro hn
    simp [hn]
  · intro f hf
    split
    · rfl
    · exact getField_setField_other _ _ _ _ hf

/-- Witness for C8: the video created as `{videoId: "v1", title: "t"}`, liked twice. -/
theorem C8_likes_after_increments_witness :
    (videos = videos ∨ videos = comments) ∧
    findOne (keyFilter videos.keyField "v1") (postCreate videos env1 [] videoV1).2 =
      some [("_id", .oid 1), ("videoId", .str "v1"), ("title", .str "t")] ∧
    (getField [("_id", .oid 1), ("videoId", .str "v1"), ("title", .str "t")] "likes" =
        some (.num 0) ∨
      (getField [("_id", .oid 1), ("videoId", .str "v1"), ("title", .str "t")] "likes" = none ∧
        (0 : Int) = 0)) ∧
    (-9007199254740992 : Int) ≤ 0 ∧ (0 : Int) + (2 : Nat) ≤ 9007199254740992 ∧
    ∃ pre post d',
      (postCreate videos env1 [] videoV1).2 =
        pre ++ [("_id", .oid 1), ("videoId", .str "v1"), ("title", .str "t")] :: post ∧
      patchLikesN videos "v1" 2 (postCreate videos env1 [] videoV1).2 =
        (List.replicate 2
            ⟨200, .counted 1 (" " ++ videos.noun ++ "(s) updated with incremented likes.")⟩,
          pre ++ d' :: post) ∧
      findOne (keyFilter videos.keyField "v1") (pre ++ d' :: post) = some d' ∧
      (0 < 2 → getField d' "likes" = some (.num ((0 : Int) + (2 : Nat)))) ∧
      (2 = 0 → d' = [("_id", .oid 1), ("videoId", .str "v1"), ("title", .str "t")]) ∧
      ∀ f, f ≠ "likes" → getField d' f =
        getField [("_id", .oid 1), ("videoId", .str "v1"), ("title", .str "t")] f :=
  ⟨Or.inl rfl, by decide, Or.inr ⟨by decide, rfl⟩, by decide, by decide,
    C8_likes_after_increments videos (Or.inl rfl) 2 0 "v1" (postCreate videos env1 [] videoV1).2
      [("_id", .oid 1), ("videoId", .str "v1"), ("title", .str "t")] (by decide)
      (Or.inr ⟨by decide, rfl⟩) (by decide) (by decide)⟩

/-- The scenario of the specification: `POST /videos` with `{videoId: "v1", title: "t"}`, then
`PATCH /videos/v1/likes` twice, then `GET /videos/v1` shows `likes: 2`. -/
theorem scenario_video_liked_twice :
    (postCreate videos env1 [] videoV1).1.status = 201 ∧
    (patchLikesN videos "v1" 2 (postCreate videos env1 [] videoV1).2).1.map Response.status =
      [200, 200] ∧
    getByKey videos (patchLikesN videos "v1" 2 (postCreate videos env1 [] videoV1).2).2 "v1" =
      ⟨200, .json (.obj [("_id", .oid 1), ("videoId", .str "v1"), ("title", .str "t"),
        ("likes", .num 2)])⟩ := by
  decide

/-- C9 (as amended): create then get-by-key for users, videos and comments. When the body carries
the string key `k`, no stored document matches `k` yet, and the identifier to be assigned (the
body's own `_id`, or the generated one) is not in use and is not an array, `POST` answers 201 and
appends one document, and `GET` by `k` then answers 200 with that document, whose `_id` is the
assigned identifier and whose other fields are exactly those of the body. -/
theorem C9_create_then_get (r : Resource) (hr : r = users ∨ r = videos ∨ r = comments)
    (env : Env) (c : Coll) (body : Doc) (k : String)
    (hk : getField body r.keyField = some (.str k))
    (hnew : ∀ d ∈ c, keyFilter r.keyField k d = false)
    (hfree : ∀ d ∈ c, getField d "_id" ≠ some (assignedId env.oid body))
    (hid : ∀ xs, getField body "_id" ≠ some (.arr xs)) :
    ∃ stored,
      postCreate r env c body =
        (⟨201, .withId (r.title ++ " added with ID: ") (assignedId env.oid body)⟩,
          c ++ [stored]) ∧
      getByKey r (c ++ [stored]) k = ⟨200, .json (.obj stored)⟩ ∧
      getField stored "_id" = some (assignedId env.oid body) ∧
      ∀ f, f ≠ "_id" → getField stored f = getField body f := by
  have hkey : r.keyField ≠ "_id" := by
    rcases hr with h | h | h <;> subst h <;> decide
  refine ⟨("_id", assignedId env.oid body) :: dropField body "_id", ?_, ?_, ?_, ?_⟩
  · unfold postCreate
    rw [insertOne_fresh env.oid c body hfree hid]
  · have hs : keyFilter r.keyField k (("_id", assignedId env.oid body) :: dropField body "_id")
        = true := by
      rw [keyFilter_iff]
      left
      rw [getField_cons, getField_dropField]
      simp [hkey, hk]
    unfold getByKey
    rw [findOne_append _ c [] _ hnew hs]
  · rw [getField_cons]
    simp
  · intro f hf
    rw [getField_cons, getField_dropField]
    simp [hf]

/-- C9 (counterexample): when a user `u1` is already stored, creating another document with the
key `u1` succeeds, and `GET /users/u1` still returns the older document, not the inserted fields. -/
theorem C9_get_returns_older_document :
    postCreate users env2 [userU1] [("userId", .str "u1"), ("name", .str "new")] =
      (⟨201, .withId "User added with ID: " (.oid 2)⟩,
        [userU1, [("_id", .oid 2), ("userId", .str "u1"), ("name", .str "new")]]) ∧
    getByKey users [userU1, [("_id", .oid 2), ("userId", .str "u1"), ("name", .str "new")]] "u1" =
      ⟨200, .json (.obj [("_id", .oid 1), ("userId", .str "u1"), ("name", .str "old")])⟩ := by
  decide

/-- Witness for C9: creating the video `v1` in an empty collection. -/
theorem C9_create_then_get_witness :
    (videos = users ∨ videos = videos ∨ videos = comments) ∧
    getField videoV1 videos.keyField = some (.str "v1") ∧
    (∀ d ∈ ([] : Coll), keyFilter videos.keyField "v1" d = false) ∧
    (∀ d ∈ ([] : Coll), getField d "_id" ≠ some (assignedId env1.oid videoV1)) ∧
    (∀ xs, getField videoV1 "_id" ≠ some (.arr xs)) ∧
    ∃ stored,
      postCreate videos env1 [] videoV1 =
        (⟨201, .withId (videos.title ++ " added with ID: ") (assignedId env1.oid videoV1)⟩,
          [] ++ [stored]) ∧
      getByKey videos ([] ++ [stored]) "v1" = ⟨200, .json (.obj stored)⟩ ∧
      getField stored "_id" = some (assignedId env1.oid videoV1) ∧
      ∀ f, f ≠ "_id" → getField stored f = getField videoV1 f :=
  ⟨Or.inr (Or.inl rfl), by decide, by simp, by simp, (fun xs h => by cases h),
    C9_create_then_get videos (Or.inr (Or.inl rfl)) env1 [] videoV1 "v1" (by decide) (by simp)
      (by simp) (fun xs h => by cases h)⟩

/-- What `GET /playlists/:userId` computes: it looks the path parameter up in the field `userId`.
It answers 404 exactly when no playlist has `userId` matching the parameter, 200 exactly when one
has, and then carries the array of all playlists whose `userId` matches, in collection order. A
`userId` matches when it is the given string or an array holding it. -/
theorem getPlaylists_of_user (c : Coll) (id : String) :
    (∀ d, keyFilter "userId" id d = true ↔
      getField d "userId" = some (.str id) ∨
        ∃ xs, getField d "userId" = some (.arr xs) ∧ JVal.str id ∈ xs) ∧
    ((getPlaylists c id).status = 404 ↔ ∀ d ∈ c, keyFilter "userId" id d = false) ∧
    ((getPlaylists c id).status = 200 ↔ ∃ d ∈ c, keyFilter "userId" id d = true) ∧
    ((∃ d ∈ c, keyFilter "userId" id d = true) →
      getPlaylists c id =
        ⟨200, .json (.arr ((c.filter (keyFilter "userId" id)).map JVal.obj))⟩) := by
  have hlen : (find (keyFilter "userId" id) c).length = 0 ↔
      ∀ d ∈ c, keyFilter "userId" id d = false := by
    unfold find
    rw [List.length_eq_zero, List.filter_eq_nil_iff]
    simp
  refine ⟨fun d => keyFilter_iff "userId" id d, ?_⟩
  unfold getPlaylists
  by_cases h : (find (keyFilter "userId" id) c).length = 0
  · have h' := hlen.mp h
    simp only [h, if_true]
    refine ⟨by simpa using h', ?_, ?_⟩
    · constructor
      · intro hc; simp at hc
      · rintro ⟨d, hd, hm⟩
        rw [h' d hd] at hm
        simp at hm
    · rintro ⟨d, hd, hm⟩
      rw [h' d hd] at hm
      simp at hm
  · have h' : ¬ ∀ d ∈ c, keyFilter "userId" id d = false := fun e => h (hlen.mpr e)
    simp only [h, if_false]
    refine ⟨?_, ?_, ?_⟩
    · constructor
      · intro hc; simp at hc
      · intro e; exact absurd e h'
    · constructor
      · intro _
        by_contra hne
        apply h'
        intro d hd
        by_contra hm
        exact hne ⟨d, hd, by simpa using hm⟩
      · intro _; trivial
    · intro _; rfl

/-- C10 (the code departs from the claim): the collection holds a playlist whose `playlistId` is
`p1`, and `GET /playlists/p1` answers 404, because the handler looks the identifier up in the
field `userId`. -/
theorem C10_get_by_playlist_id_misses :
    (∃ d ∈ [playlistP1], getField d "playlistId" = some (.str "p1")) ∧
    getPlaylists [playlistP1] "p1" =
      ⟨404, .json (message "No playlists found for this user")⟩ :=
  ⟨⟨playlistP1, List.mem_singleton.mpr rfl, by decide⟩, by decide⟩

/-- C11: delete by key, for every resource served by the shared handler (users, videos and
comments among them) and for playlists. When no document matches the key the answer is 200
reporting 0 documents deleted and the collection is unchanged. For every key the answer is 200
and the reported count is 0 or 1: it is the number of documents removed, and it is 1 exactly when
some document matches. -/
theorem C11_delete_by_key (r : Resource) (c : Coll) (k : String) :
    ((∀ d ∈ c, keyFilter r.keyField k d = false) →
      deleteByKey r c k = (⟨200, .counted 0 " document(s) deleted"⟩, c)) ∧
    ((∀ d ∈ c, keyFilter "playlistId" k d = false) →
      deletePlaylist c k = (⟨200, .counted 0 " document(s) deleted"⟩, c)) ∧
    (∃ n, n ≤ 1 ∧ (deleteByKey r c k).1 = ⟨200, .counted n " document(s) deleted"⟩ ∧
      (deleteByKey r c k).2.length + n = c.length ∧
      (n = 1 ↔ ∃ d ∈ c, keyFilter r.keyField k d = true)) ∧
    (∃ n, n ≤ 1 ∧ (deletePlaylist c k).1 = ⟨200, .counted n " document(s) deleted"⟩ ∧
      (deletePlaylist c k).2.length + n = c.length ∧
      (n = 1 ↔ ∃ d ∈ c, keyFilter "playlistId" k d = true)) := by
  refine ⟨?_, ?_, ?_, ?_⟩
  · intro h
    unfold deleteByKey
    rw [deleteOne_none _ c h]
  · intro h
    unfold deletePlaylist
    rw [deleteOne_none _ c h]
  · exact ⟨(deleteOne (keyFilter r.keyField k) c).1, deleteOne_count_le _ c, rfl,
      deleteOne_length _ c, deleteOne_count_eq_one_iff _ c⟩
  · exact ⟨(deleteOne (keyFilter "playlistId" k) c).1, deleteOne_count_le _ c, rfl,
      deleteOne_length _ c, deleteOne_count_eq_one_iff _ c⟩

/-- Witness for C11: deleting the absent user `u2` and the absent playlist `p2`. -/
theorem C11_delete_by_key_witness :
    (∀ d ∈ [userU1], keyFilter users.keyField "u2" d = false) ∧
    (∀ d ∈ [playlistP1], keyFilter "playlistId" "p2" d = false) ∧
    deleteByKey users [userU1] "u2" = (⟨200, .counted 0 " document(s) deleted"⟩, [userU1]) ∧
    deletePlaylist [playlistP1] "p2" =
      (⟨200, .counted 0 " document(s) deleted"⟩, [playlistP1]) :=
  ⟨by decide, by decide,
    (C11_delete_by_key users [userU1] "u2").1 (by decide),
    (C11_delete_by_key users [playlistP1] "p2").2.1 (by decide)⟩

/-- C12 (counterexample): the body carries both fields, `subscriber` being the empty string, and
the collection is empty; the handler answers 400 and inserts nothing, where the claim has it
insert and answer 201. -/
theorem C12_empty_subscriber_is_rejected :
    getField [("subscriber", .str ""), ("channel", .str "B")] "subscriber" = some (.str "") ∧
    getField [("subscriber", .str ""), ("channel", .str "B")] "channel" = some (.str "B") ∧
    postSubscriptionChecked plainStore env1 [] [("subscriber", .str ""), ("channel", .str "B")] =
      (⟨400, .json (message "Both 'subscriber' and 'channel' are required")⟩, []) := by
  decide

/-- C12 (as amended): the duplicate-checking handler (lines 83-119) run on its own. A field that
is missing or falsy gives 400 and no write. Otherwise, for values that are no operator documents:
a stored subscription matching both values (equal to them, or an array holding them; so in
particular one with exactly that pair) gives 409 and no write; with no such subscription and the
generated identifier unused, exactly one document is appended, made of `_id`, `subscriptionId`
(the letter s followed by the timestamp), the given subscriber and channel and `subscribedAt`,
and the answer is 201 carrying that document. And if no two stored subscriptions share a pair
before the call, none do after it. -/
theorem C12_checked_create_decides (sem : StoreSem) (env : Env) (c : Coll) (body : Doc) :
    ((truthy (getField body "subscriber") = false ∨ truthy (getField body "channel") = false) →
      postSubscriptionChecked sem env c body =
        (⟨400, .json (message "Both 'subscriber' and 'channel' are required")⟩, c)) ∧
    (∀ s ch, getField body "subscriber" = some s → getField body "channel" = some ch →
      truthy (some s) = true → truthy (some ch) = true →
      isOperator s = false → isOperator ch = false →
      ((∃ d ∈ c, eqMatch s (getField d "subscriber") = true ∧
          eqMatch ch (getField d "channel") = true) →
        postSubscriptionChecked sem env c body =
          (⟨409, .json (message "Subscription already exists")⟩, c)) ∧
      ((∃ d ∈ c, getField d "subscriber" = some s ∧ getField d "channel" = some ch) →
        postSubscriptionChecked sem env c body =
          (⟨409, .json (message "Subscription already exists")⟩, c)) ∧
      ((∀ d ∈ c, ¬ (eqMatch s (getField d "subscriber") = true ∧
          eqMatch ch (getField d "channel") = true)) →
        (∀ d ∈ c, getField d "_id" ≠ some (.oid env.oid)) →
        postSubscriptionChecked sem env c body =
          (⟨201, .json (.obj [("message", .str "Subscription created successfully"),
            ("subscription", .obj [("subscriptionId", .str ("s" ++ toString env.now)),
              ("subscriber", s), ("channel", ch), ("subscribedAt", .date env.date),
              ("_id", .oid env.oid)])])⟩,
            c ++ [[("_id", .oid env.oid), ("subscriptionId", .str ("s" ++ toString env.now)),
              ("subscriber", s), ("channel", ch), ("subscribedAt", .date env.date)]]))) ∧
    ((∀ s, getField body "subscriber" = some s → isOperator s = false) →
      (∀ ch, getField body "channel" = some ch → isOperator ch = false) →
      (c.map pairOf).Nodup →
      ((postSubscriptionChecked sem env c body).2.map pairOf).Nodup) := by
  refine ⟨postSubscriptionChecked_falsy sem env c body, ?_, ?_⟩
  · intro s ch hs hch hts htch hps hpch
    have hmatch : (∃ d ∈ c, eqMatch s (getField d "subscriber") = true ∧
        eqMatch ch (getField d "channel") = true) →
        postSubscriptionChecked sem env c body =
          (⟨409, .json (message "Subscription already exists")⟩, c) := by
      rintro ⟨d, hd, h1, h2⟩
      rw [postSubscriptionChecked_plain sem env c body s ch hs hch hts htch hps hpch]
      cases hfind : findOne (fun d => eqMatch s (getField d "subscriber") &&
          eqMatch ch (getField d "channel")) c with
      | some x => rfl
      | none =>
        have := (findOne_eq_none_iff _ _).mp hfind d hd
        simp [h1, h2] at this
    refine ⟨hmatch, ?_, ?_⟩
    · rintro ⟨d, hd, h1, h2⟩
      exact hmatch ⟨d, hd, by rw [h1]; exact eqMatch_self s, by rw [h2]; exact eqMatch_self ch⟩
    · intro hnone hfree
      have hfind : findOne (fun d => eqMatch s (getField d "subscriber") &&
          eqMatch ch (getField d "channel")) c = none := by
        rw [findOne_eq_none_iff]
        intro d hd
        have := hnone d hd
        by_contra hne
        apply this
        simpa using hne
      rw [postSubscriptionChecked_plain sem env c body s ch hs hch hts htch hps hpch, hfind]
      simp only
      rw [insertOne_newSubscription env c s ch hfree]
      rfl
  · intro hps hpch hnodup
    rcases postSubscriptionChecked_store sem env c body hps hpch with h | ⟨s, ch, h, hnone⟩
    · rw [h]
      exact hnodup
    · rw [h, List.map_append, List.map_singleton, pairOf_stored]
      apply List.Nodup.append hnodup (List.nodup_singleton _)
      intro x hx hx'
      rw [List.mem_singleton] at hx'
      subst hx'
      obtain ⟨d, hd, hp⟩ := List.mem_map.mp hx
      apply hnone d hd
      have h1 : getField d "subscriber" = some s := congrArg Prod.fst hp
      have h2 : getField d "channel" = some ch := congrArg Prod.snd hp
      exact ⟨by rw [h1]; exact eqMatch_self s, by rw [h2]; exact eqMatch_self ch⟩

/-- Witness for C12: the pair `(A, B)` posted to an empty collection. -/
theorem C12_checked_create_decides_witness :
    getField pairAB "subscriber" = some (.str "A") ∧
    getField pairAB "channel" = some (.str "B") ∧
    truthy (some (.str "A")) = true ∧ truthy (some (.str "B")) = true ∧
    isOperator (.str "A") = false ∧ isOperator (.str "B") = false ∧
    (∀ d ∈ ([] : Coll), ¬ (eqMatch (.str "A") (getField d "subscriber") = true ∧
      eqMatch (.str "B") (getField d "channel") = true)) ∧
    (∀ d ∈ ([] : Coll), getField d "_id" ≠ some (.oid env1.oid)) ∧
    postSubscriptionChecked plainStore env1 [] pairAB =
      (⟨201, .json (.obj [("message", .str "Subscription created successfully"),
        ("subscription", .obj [("subscriptionId", .str ("s" ++ toString env1.now)),
          ("subscriber", .str "A"), ("channel", .str "B"), ("subscribedAt", .date env1.date),
          ("_id", .oid env1.oid)])])⟩,
        [] ++ [[("_id", .oid env1.oid), ("subscriptionId", .str ("s" ++ toString env1.now)),
          ("subscriber", .str "A"), ("channel", .str "B"), ("subscribedAt", .date env1.date)]]) :=
  ⟨by decide, by decide, by decide, by decide, by decide, by decide, by simp, by simp,
    ((C12_checked_create_decides plainStore env1 [] pairAB).2.1 (.str "A") (.str "B")
      (by decide) (by decide) (by decide) (by decide) (by decide) (by decide)).2.2
      (by simp) (by simp)⟩

end YT
